import Mathlib

/-! susalyzer: sprite template matcher

A shallow embedding of `main.go`: the colour comparator (`delta`, `diff`,
`isSame`), the template model (`bodyPoint`, `visorPoint`, `reverse`,
`flipHorizontal`), the template library expansion and the scan loop of `main`.

Conventions.
* A `uint8` is a `Nat` below 256; sums of `uint8` values wrap with `% 256`.
* A template cell is a Go `int`, modelled as `Int`; the bit tests `t&BODY`
  are `Int.land`.
* Every read of the decoded picture goes through `color.NRGBAModel.Convert`, so
  the picture is the grid of its converted 8-bit NRGBA pixels with
  `Min = (0,0)`, together with the converted colour that `At` returns outside
  the bounds: the zero colour for `*image.NRGBA` and `*image.RGBA`, black with
  full alpha for `*image.Gray`, palette entry 0 for `*image.Paletted`.
* The canvas is an `*image.NRGBA`: `At` outside the bounds gives the zero
  colour and `Set` outside the bounds does nothing.
* A `panic` is the `none` of an `Option`.
-/

namespace Susalyzer

/-! ## Data model -/

/-- The Go type `color.NRGBA`: non-premultiplied 8-bit channels. -/
structure NRGBA where
  R : Nat
  G : Nat
  B : Nat
  A : Nat
deriving DecidableEq

/-- The Go type `color.RGBA`: alpha-premultiplied 8-bit channels. -/
structure RGBA where
  R : Nat
  G : Nat
  B : Nat
  A : Nat
deriving DecidableEq

/-- Every channel is a `uint8`. -/
def NRGBA.valid (c : NRGBA) : Prop :=
  c.R < 256 ∧ c.G < 256 ∧ c.B < 256 ∧ c.A < 256

instance (c : NRGBA) : Decidable c.valid := by
  unfold NRGBA.valid; infer_instance

abbrev Row := List Int
abbrev Template := List Row

def BG : Int := 1
def VISOR : Int := 2
def BODY : Int := 4
def ANY : Int := 8

def baseTemplates : List Template := [
  [ [BG, BODY, BODY, BODY],
    [BODY, BODY, VISOR, VISOR],
    [BODY, BODY, BODY, BODY],
    [BG, BODY, BODY, BODY],
    [ANY, BODY, BG, BODY],
    [ANY, BODY, BG, BODY] ],
  [ [BG, BODY, BODY, BODY],
    [BODY, BODY, VISOR, VISOR],
    [BODY, BODY, BODY, BODY],
    [BG, BODY, BODY, BODY],
    [ANY, BODY, BG, BODY] ],
  [ [BG, BODY, BODY, BODY],
    [BODY, BODY, VISOR, VISOR],
    [BG, BODY, BODY, BODY],
    [BG, BODY, BODY, BODY],
    [ANY, BODY, BG, BODY] ],
  [ [BG, BODY, BODY, BODY],
    [BODY, BODY, VISOR, VISOR],
    [BG, BODY, BODY, BODY],
    [ANY, BODY, BG, BODY] ],
  [ [BG, BODY, BODY, BODY],
    [BODY, BODY, VISOR, VISOR],
    [BODY, BODY, BODY, BODY],
    [BG, BODY, BG, BODY] ],
  [ [BG, BODY, BODY, BODY],
    [BG, BODY, VISOR, VISOR],
    [BODY, BODY, BODY, BODY],
    [BG, BODY, BODY, BODY],
    [ANY, BODY, BG, BODY] ],
  [ [BG, BODY, BODY, BODY],
    [BODY, BODY, VISOR, VISOR],
    [BODY, BODY, BODY, BODY],
    [Int.lor BG BODY, BODY, BODY, BODY],
    [BG, BODY, BG, BODY] ],
  [ [BODY, BODY, BODY],
    [BODY, VISOR, VISOR],
    [BODY, BODY, BODY],
    [BODY, BODY, BODY],
    [BODY, BG, BODY] ],
  [ [BODY, BODY, BODY],
    [BODY, VISOR, VISOR],
    [BODY, BODY, BODY],
    [BODY, BG, BODY] ] ]

/-! ## Colour comparator -/

/-- Go `delta(a, b uint8) uint8`: the absolute difference of two bytes. -/
def delta (a b : Nat) : Nat :=
  if a > b then a - b else b - a

/-- Go `diff`: the four channel deltas added up in `uint8` arithmetic, every
addition wrapping modulo 256. -/
def diff (c1 c2 : NRGBA) : Nat :=
  let r := delta c1.R c2.R
  let g := delta c1.G c2.G
  let b := delta c1.B c2.B
  let a := delta c1.A c2.A
  (((r + g) % 256 + b) % 256 + a) % 256

/-- Go `isSame(c1, c2, delta)`: `diff(c1, c2) < delta`. -/
def isSame (c1 c2 : NRGBA) (tol : Nat) : Bool :=
  decide (diff c1 c2 < tol)

/-- The Manhattan distance over the four channels, computed in unbounded
integers: the distance the colour comparator is specified to compute. -/
def manhattan (c1 c2 : NRGBA) : Nat :=
  delta c1.R c2.R + delta c1.G c2.G + delta c1.B c2.B + delta c1.A c2.A

/-! ## Template model -/

/-- The inner loop of `bodyPoint` / `visorPoint`: the column of the first cell
of the row that equals `tag`, counting from `dx`. -/
def firstInRow (tag : Int) : Row → Nat → Option Nat
  | [], _ => none
  | t :: rest, dx => if t = tag then some dx else firstInRow tag rest (dx + 1)

/-- The outer loop of `bodyPoint` / `visorPoint`: rows are visited top to
bottom, counting from `dy`; `none` is the `panic` after the loops. -/
def firstCell (tag : Int) : Template → Nat → Option (Nat × Nat)
  | [], _ => none
  | row :: rest, dy =>
    match firstInRow tag row 0 with
    | some dx => some (dx, dy)
    | none => firstCell tag rest (dy + 1)

/-- Go `bodyPoint`: `(dx, dy)` of the first cell with `t == BODY`, or a panic. -/
def bodyPoint (template : Template) : Option (Nat × Nat) :=
  firstCell BODY template 0

/-- Go `visorPoint`: `(dx, dy)` of the first cell with `t == VISOR`, or a panic. -/
def visorPoint (template : Template) : Option (Nat × Nat) :=
  firstCell VISOR template 0

/-- The loop of Go `reverse`: while `i <= j`, store `numbers[j]` at `i` and
`numbers[i]` at `j` of `newNumbers`, then step `i` up and `j` down. -/
def reverseLoop (numbers : List Int) : Nat → Nat → Int → List Int → List Int
  | 0, _, _, newNumbers => newNumbers
  | fuel + 1, i, j, newNumbers =>
    if (i : Int) ≤ j then
      reverseLoop numbers fuel (i + 1) (j - 1)
        ((newNumbers.set i (numbers.getD j.toNat 0)).set j.toNat (numbers.getD i 0))
    else newNumbers

/-- Go `reverse`: `newNumbers` starts as `len(numbers)` zeros, `i = 0` and
`j = len(numbers) - 1`. The loop runs at most `len(numbers)` times. -/
def reverse (numbers : List Int) : List Int :=
  reverseLoop numbers numbers.length 0 ((numbers.length : Int) - 1)
    (List.replicate numbers.length 0)

/-- The loop of Go `flipHorizontal`, appending to `flipped`. -/
def flipLoop : Template → Template → Template
  | [], flipped => flipped
  | row :: rest, flipped => flipLoop rest (flipped ++ [reverse row])

/-- Go `flipHorizontal`: every row reversed, appended to an empty template. -/
def flipHorizontal (template : Template) : Template :=
  flipLoop template []

/-! ## Template library -/

/-- The library loop of `main`: each template is appended, then its mirror. -/
def expandLoop : List Template → List Template → List Template
  | [], templates => templates
  | template :: rest, templates =>
    expandLoop rest ((templates ++ [template]) ++ [flipHorizontal template])

/-- The library built from a catalog. -/
def expand (catalog : List Template) : List Template :=
  expandLoop catalog []

/-- The `templates` variable of `main`. -/
def templates : List Template :=
  expand baseTemplates

/-! ## Images -/

/-- A pixel grid `w` wide and `h` high with its origin at `(0, 0)`, and the
colour `outside` that `At` returns outside the bounds (it depends on the Go
type of the picture). -/
structure Image where
  w : Nat
  h : Nat
  pix : Nat → Nat → NRGBA
  outside : NRGBA

/-- The zero value `color.NRGBA{}`. -/
def zeroColor : NRGBA := ⟨0, 0, 0, 0⟩

/-- Go `At`: the pixel inside the bounds, the colour `outside` of the picture
outside them. -/
def Image.At (img : Image) (x y : Nat) : NRGBA :=
  if x < img.w ∧ y < img.h then img.pix x y else img.outside

/-- Go `image.NRGBA.Set` with a `color.NRGBA` argument: the colour is stored
unchanged inside the bounds; outside them nothing happens. -/
def Image.Set (img : Image) (x y : Nat) (c : NRGBA) : Image :=
  if x < img.w ∧ y < img.h then
    { img with pix := fun x1 y1 => if x1 = x ∧ y1 = y then c else img.pix x1 y1 }
  else img

/-- Go `image.NewNRGBA`: every pixel is the zero colour, and so is every read
outside the bounds. -/
def newNRGBA (w h : Nat) : Image :=
  ⟨w, h, fun _ _ => zeroColor, zeroColor⟩

/-- Go `color.RGBA.RGBA()` on one channel: `c |= c << 8`. -/
def widen (c : Nat) : Nat :=
  Nat.lor c (c <<< 8)

/-- Go `color.NRGBAModel.Convert` on a `color.RGBA` value: the channels are
widened to 16 bits, and unless alpha is full or zero the colour channels are
divided by alpha in `uint32` arithmetic; the high byte of each is kept. -/
def nrgbaModel (c : RGBA) : NRGBA :=
  let r := widen c.R
  let g := widen c.G
  let b := widen c.B
  let a := widen c.A
  if a = 0xffff then
    ⟨(r >>> 8) % 256, (g >>> 8) % 256, (b >>> 8) % 256, 0xff⟩
  else if a = 0 then
    ⟨0, 0, 0, 0⟩
  else
    let r := (r * 0xffff) % 2 ^ 32 / a
    let g := (g * 0xffff) % 2 ^ 32 / a
    let b := (b * 0xffff) % 2 ^ 32 / a
    ⟨(r >>> 8) % 256, (g >>> 8) % 256, (b >>> 8) % 256, (a >>> 8) % 256⟩

/-- Go `image.NRGBA.Set` with a `color.RGBA` argument: the colour goes through
`color.NRGBAModel.Convert` before it is stored. -/
def Image.SetRGBA (img : Image) (x y : Nat) (c : RGBA) : Image :=
  img.Set x y (nrgbaModel c)

/-! ## Scan loop of `main` -/

/-- The body of the cell loop: `true` is a `continue`, `false` is
`match = false; break`. -/
def cellTest (t : Int) (pixel bodyColor visorColor : NRGBA) : Bool :=
  if Int.land t BODY ≠ 0 ∧ isSame pixel bodyColor 8 = true then true
  else if Int.land t VISOR ≠ 0 ∧ isSame pixel visorColor 8 = true then true
  else if Int.land t BG ≠ 0 ∧ ¬ isSame pixel bodyColor 6 = true then true
  else if t = ANY then true
  else false

/-- The loop over the cells of one row, from column `dx`; the value is `match`
after the loop. -/
def rowTest (img : Image) (x y dy : Nat) (bodyColor visorColor : NRGBA) :
    Row → Nat → Bool
  | [], _ => true
  | t :: rest, dx =>
    if cellTest t (img.At (x + dx) (y + dy)) bodyColor visorColor then
      rowTest img x y dy bodyColor visorColor rest (dx + 1)
    else false

/-- The loop over the rows of a template, from row `dy`. -/
def gridTest (img : Image) (x y : Nat) (bodyColor visorColor : NRGBA) :
    Template → Nat → Bool
  | [], _ => true
  | row :: rest, dy =>
    if rowTest img x y dy bodyColor visorColor row 0 then
      gridTest img x y bodyColor visorColor rest (dy + 1)
    else false

/-- The loop over the template variants at origin `(x, y)`. `none` is a panic
of an anchor lookup; `some matched` is the value of `matched` after the loop
(`none` for `nil`). -/
def findMatch (img outImg : Image) (x y : Nat) :
    List Template → Option (Option Template)
  | [] => some none
  | template :: rest =>
    match bodyPoint template with
    | none => none
    | some (bodyX, bodyY) =>
      match visorPoint template with
      | none => none
      | some (visorX, visorY) =>
        let bodyColor := img.At (x + bodyX) (y + bodyY)
        let visorColor := img.At (x + visorX) (y + visorY)
        if isSame bodyColor visorColor 16 then findMatch img outImg x y rest
        else if (outImg.At x y).A ≠ 0 then findMatch img outImg x y rest
        else if gridTest img x y bodyColor visorColor template 0 then
          some (some template)
        else findMatch img outImg x y rest

/-- The colour `dimmedColor` built from the source pixel. -/
def dimmedColor (originalColor : NRGBA) : RGBA :=
  ⟨originalColor.R / 4, originalColor.G / 4, originalColor.B / 4, originalColor.A⟩

/-- The claim loop over one row of the matched template. -/
def claimRow (img : Image) (x y dy : Nat) : Row → Nat → Image → Image
  | [], _, outImg => outImg
  | t :: rest, dx, outImg =>
    claimRow img x y dy rest (dx + 1)
      (if Int.land t (Int.lor BODY VISOR) ≠ 0 then
        outImg.Set (x + dx) (y + dy) (img.At (x + dx) (y + dy))
      else outImg)

/-- The claim loop over the rows of the matched template. -/
def claim (img : Image) (x y : Nat) : Template → Nat → Image → Image
  | [], _, outImg => outImg
  | row :: rest, dy, outImg =>
    claim img x y rest (dy + 1) (claimRow img x y dy row 0 outImg)

/-- The variables of `main` that the scan changes. -/
structure ScanState where
  outImg : Image
  count : Nat

/-- The dimming write at `(x, y)`. -/
def dim (img outImg : Image) (x y : Nat) : Image :=
  if (outImg.At x y).A = 0 then outImg.SetRGBA x y (dimmedColor (img.At x y))
  else outImg

/-- One pass of the body of the `y` loop. -/
def visit (img : Image) (lib : List Template) (s : ScanState) (x y : Nat) :
    Option ScanState :=
  match findMatch img s.outImg x y lib with
  | none => none
  | some matched =>
    let outImg := dim img s.outImg x y
    match matched with
    | none => some ⟨outImg, s.count⟩
    | some m => some ⟨claim img x y m 0 outImg, s.count + 1⟩

/-- The `y` loop for one `x`. -/
def scanColumn (img : Image) (lib : List Template) (x : Nat) (s : ScanState) :
    Option ScanState :=
  (List.range img.h).foldlM (fun s y => visit img lib s x y) s

/-- The `x` loop, from a fresh canvas and `count = 0`. -/
def scan (img : Image) (lib : List Template) : Option ScanState :=
  (List.range img.w).foldlM (fun s x => scanColumn img lib x s)
    ⟨newNRGBA img.w img.h, 0⟩

/-- The conditions under which the variant loop accepts `template` at origin
`(x, y)`: both anchors exist, the two anchor colours are not within 16 of each
other, the canvas pixel at the origin has alpha 0, and every cell passes. -/
def variantPasses (img outImg : Image) (x y : Nat) (template : Template) : Bool :=
  match bodyPoint template, visorPoint template with
  | some (bodyX, bodyY), some (visorX, visorY) =>
    let bodyColor := img.At (x + bodyX) (y + bodyY)
    let visorColor := img.At (x + visorX) (y + visorY)
    !isSame bodyColor visorColor 16 && decide ((outImg.At x y).A = 0) &&
      gridTest img x y bodyColor visorColor template 0
  | _, _ => false

/-- Both anchor lookups of every variant of the library succeed. -/
def anchored (lib : List Template) : Prop :=
  ∀ t ∈ lib, (bodyPoint t).isSome = true ∧ (visorPoint t).isSome = true

instance (lib : List Template) : Decidable (anchored lib) := by
  unfold anchored; infer_instance

/-- An NRGBA picture given by its rows of pixels. -/
def ofRows (w h : Nat) (rows : List (List NRGBA)) : Image :=
  ⟨w, h, fun x y => (rows.getD y []).getD x zeroColor, zeroColor⟩

/-! ## Test pictures -/

/-- A 3 x 4 picture of base template 8: opaque body and visor colours, and
under the Background cell a pixel at distance exactly 6 from the body colour. -/
def edgeSprite : Image :=
  ofRows 3 4
    [ [⟨100, 0, 0, 255⟩, ⟨100, 0, 0, 255⟩, ⟨100, 0, 0, 255⟩],
      [⟨100, 0, 0, 255⟩, ⟨0, 100, 0, 255⟩, ⟨0, 100, 0, 255⟩],
      [⟨100, 0, 0, 255⟩, ⟨100, 0, 0, 255⟩, ⟨100, 0, 0, 255⟩],
      [⟨100, 0, 0, 255⟩, ⟨106, 0, 0, 255⟩, ⟨100, 0, 0, 255⟩] ]

/-- A 3 x 4 picture of base template 8 whose body pixels are fully transparent
(alpha 0) with a non-zero red channel. -/
def clearSprite : Image :=
  ofRows 3 4
    [ [⟨100, 0, 0, 0⟩, ⟨100, 0, 0, 0⟩, ⟨100, 0, 0, 0⟩],
      [⟨100, 0, 0, 0⟩, ⟨0, 100, 0, 255⟩, ⟨0, 100, 0, 255⟩],
      [⟨100, 0, 0, 0⟩, ⟨100, 0, 0, 0⟩, ⟨100, 0, 0, 0⟩],
      [⟨100, 0, 0, 0⟩, ⟨0, 0, 0, 255⟩, ⟨100, 0, 0, 0⟩] ]

/-- A single half-transparent pixel. -/
def halfPixel : Image :=
  ofRows 1 1 [[⟨200, 100, 50, 128⟩]]

/-- The last template of the catalog (index 8). -/
def template8 : Template :=
  [ [BODY, BODY, BODY],
    [BODY, VISOR, VISOR],
    [BODY, BODY, BODY],
    [BODY, BG, BODY] ]

/-! ## More test data and specification predicates -/

/-- The NRGBA picture `w` wide and `h` high whose every pixel is `c`; reads
outside the bounds give the zero colour. -/
def uniform (w h : Nat) (c : NRGBA) : Image :=
  ⟨w, h, fun _ _ => c, zeroColor⟩

/-- The first template of the catalog (index 0). -/
def template0 : Template :=
  [ [BG, BODY, BODY, BODY],
    [BODY, BODY, VISOR, VISOR],
    [BODY, BODY, BODY, BODY],
    [BG, BODY, BODY, BODY],
    [ANY, BODY, BG, BODY],
    [ANY, BODY, BG, BODY] ]

/-- The role of template 0 over the pixel `(x, y)` when the template is placed
at `(ox, oy)`; 0 outside the footprint. -/
def roleAt (ox oy x y : Nat) : Int :=
  if ox ≤ x ∧ oy ≤ y then (template0.getD (y - oy) []).getD (x - ox) 0 else 0

/-- A `w` x `h` picture of template 0 drawn at `(ox, oy)`: `body` under the
Body cells, `visor` under the Visor cells and `back` everywhere else. -/
def drawSprite (w h ox oy : Nat) (body visor back : NRGBA) : Image :=
  ⟨w, h, fun x y =>
    if roleAt ox oy x y = BODY then body
    else if roleAt ox oy x y = VISOR then visor
    else back, zeroColor⟩

/-- The canvas expected after the scan of a picture with one sprite of
template 0 at `(ox, oy)`: source pixels under Body and Visor cells, the stored
dimmed pixel everywhere else. -/
def spriteOutput (img outImg : Image) (ox oy : Nat) : Prop :=
  ∀ x < img.w, ∀ y < img.h,
    outImg.At x y =
      if roleAt ox oy x y = BODY ∨ roleAt ox oy x y = VISOR then img.At x y
      else nrgbaModel (dimmedColor (img.At x y))

instance (img outImg : Image) (ox oy : Nat) : Decidable (spriteOutput img outImg ox oy) := by
  unfold spriteOutput; infer_instance

/-- Every pixel of the canvas is `c`. -/
def allPixels (outImg : Image) (c : NRGBA) : Prop :=
  ∀ x < outImg.w, ∀ y < outImg.h, outImg.At x y = c

instance (outImg : Image) (c : NRGBA) : Decidable (allPixels outImg c) := by
  unfold allPixels; infer_instance

/-- A template with a Body cell and no Visor cell. -/
def bodyOnly : Template :=
  [[BODY]]

/-- A picture of width 0. -/
def emptyPicture : Image :=
  ⟨0, 5, fun _ _ => zeroColor, zeroColor⟩

/-- A 2 x 4 picture, narrower than every template: a nearly transparent black
body colour `(0,0,0,2)`, which is within tolerance 8 of the zero colour. -/
def narrowSprite : Image :=
  ofRows 2 4
    [ [⟨0, 0, 0, 2⟩, ⟨0, 0, 0, 2⟩],
      [⟨0, 200, 0, 255⟩, ⟨0, 200, 0, 255⟩],
      [⟨0, 0, 0, 2⟩, ⟨0, 0, 0, 2⟩],
      [⟨0, 0, 0, 2⟩, ⟨200, 200, 200, 255⟩] ]

/-- The 2 x 4 grey picture with rows `[0,0]`, `[200,200]`, `[0,0]`, `[0,100]`,
as decoded into an `*image.Gray`: every pixel converts to `(Y,Y,Y,255)` and a
read outside the bounds converts to black with full alpha. -/
def greySprite : Image :=
  ⟨2, 4, fun x y =>
    (([ [⟨0, 0, 0, 255⟩, ⟨0, 0, 0, 255⟩],
        [⟨200, 200, 200, 255⟩, ⟨200, 200, 200, 255⟩],
        [⟨0, 0, 0, 255⟩, ⟨0, 0, 0, 255⟩],
        [⟨0, 0, 0, 255⟩, ⟨100, 100, 100, 255⟩] ] : List (List NRGBA)).getD y []).getD x
      ⟨0, 0, 0, 255⟩,
    ⟨0, 0, 0, 255⟩⟩

/-- Base template 6 of the catalog, with the `BG | BODY` cell at row 3,
column 0. -/
def template6 : Template :=
  [ [BG, BODY, BODY, BODY],
    [BODY, BODY, VISOR, VISOR],
    [BODY, BODY, BODY, BODY],
    [Int.lor BG BODY, BODY, BODY, BODY],
    [BG, BODY, BG, BODY] ]

/-- Base template 6 with its `BG | BODY` cell replaced by `ANY`. -/
def template6Any : Template :=
  [ [BG, BODY, BODY, BODY],
    [BODY, BODY, VISOR, VISOR],
    [BODY, BODY, BODY, BODY],
    [ANY, BODY, BODY, BODY],
    [BG, BODY, BG, BODY] ]

/-- The replacement of base template 6 and of its mirror by their variants
with `ANY` in place of `BG | BODY`; every other template is kept. -/
def swapAny (t : Template) : Template :=
  if t = template6 then template6Any
  else if t = flipHorizontal template6 then flipHorizontal template6Any
  else t

/-- The anchors of a variant are ordered: the body anchor is not to the right
of nor below the visor anchor, and the visor anchor is not beyond column 2 or
row 2. -/
def anchorsOrdered (t : Template) : Bool :=
  match bodyPoint t, visorPoint t with
  | some (bodyX, bodyY), some (visorX, visorY) =>
    decide (bodyX ≤ visorX ∧ bodyY ≤ visorY ∧ visorX ≤ 2 ∧ visorY ≤ 2)
  | _, _ => false

/-- The state of the scan of a uniform picture when the columns before `x` and
the rows before `y` of column `x` have been visited: no match was counted, the
visited pixels hold the stored dimmed colour `d` and the others the zero
colour. -/
def dimmedUpTo (w h : Nat) (d : NRGBA) (x y : Nat) (s : ScanState) : Prop :=
  s.count = 0 ∧ s.outImg.w = w ∧ s.outImg.h = h ∧
  ∀ x1 y1 : Nat, s.outImg.pix x1 y1 =
    if x1 < w ∧ y1 < h ∧ (x1 < x ∨ (x1 = x ∧ y1 < y)) then d else zeroColor

/-- An 8 x 10 picture of template 0 at `(2, 2)`: red body, light blue visor,
white background. -/
def goodSprite : Image :=
  drawSprite 8 10 2 2 ⟨200, 30, 30, 255⟩ ⟨120, 200, 230, 255⟩ ⟨255, 255, 255, 255⟩

/-- An 8 x 10 picture of template 0 at `(2, 2)` whose body colour `(10,0,0,255)`
and visor colour `(138,128,0,255)` are at Manhattan distance 256. -/
def wrapSprite : Image :=
  drawSprite 8 10 2 2 ⟨10, 0, 0, 255⟩ ⟨138, 128, 0, 255⟩ ⟨255, 255, 255, 255⟩

/-! ## Lemmas on the template model -/

theorem reverseLoop_getElem? (numbers : List Int) :
    ∀ (fuel i : Nat) (acc : List Int), acc.length = numbers.length →
      numbers.length ≤ fuel + i → ∀ m : Nat,
      (reverseLoop numbers fuel i ((numbers.length : Int) - 1 - i) acc)[m]? =
        if i ≤ m ∧ m + i < numbers.length then numbers[numbers.length - 1 - m]?
        else acc[m]? := by
  intro fuel
  induction fuel with
  | zero =>
    intro i acc _ hf m
    have hno : ¬ (i ≤ m ∧ m + i < numbers.length) := by omega
    simp [reverseLoop, hno]
  | succ k ih =>
    intro i acc hlen hf m
    unfold reverseLoop
    by_cases hij : (i : Int) ≤ (numbers.length : Int) - 1 - i
    · have hj : ((numbers.length : Int) - 1 - i).toNat = numbers.length - 1 - i := by omega
      have hstep : (numbers.length : Int) - 1 - i - 1 = (numbers.length : Int) - 1 - ((i + 1 : Nat) : Int) := by
        push_cast; ring
      rw [if_pos hij, hstep, hj]
      rw [ih (i + 1) _ (by simp [hlen]) (by omega) m]
      have hi : i < numbers.length := by omega
      have hj2 : numbers.length - 1 - i < numbers.length := by omega
      by_cases h1 : i + 1 ≤ m ∧ m + (i + 1) < numbers.length
      · have h2 : i ≤ m ∧ m + i < numbers.length := by omega
        rw [if_pos h1, if_pos h2]
      · rw [if_neg h1]
        simp only [List.getElem?_set, List.length_set, hlen, List.getD_eq_getElem?_getD]
        by_cases hm1 : numbers.length - 1 - i = m
        · have h2 : i ≤ m ∧ m + i < numbers.length := by omega
          have h3 : numbers.length - 1 - m = i := by omega
          rw [if_pos hm1, if_pos hj2, if_pos h2, h3, List.getElem?_eq_getElem hi]
          simp
        · rw [if_neg hm1]
          by_cases hm2 : i = m
          · have h2 : i ≤ m ∧ m + i < numbers.length := by omega
            subst hm2
            rw [if_pos rfl, if_pos hi, if_pos h2, List.getElem?_eq_getElem hj2]
            simp
          · have h2 : ¬ (i ≤ m ∧ m + i < numbers.length) := by omega
            rw [if_neg hm2, if_neg h2]
    · have h2 : ¬ (i ≤ m ∧ m + i < numbers.length) := by omega
      rw [if_neg hij, if_neg h2]

/-- The swap loop of `reverse` computes the reversed list. -/
theorem reverse_eq (numbers : List Int) : reverse numbers = numbers.reverse := by
  apply List.ext_getElem?
  intro m
  have h := reverseLoop_getElem? numbers numbers.length 0
    (List.replicate numbers.length 0) (by simp) (by omega) m
  simp only [Nat.cast_zero, sub_zero] at h
  unfold reverse
  rw [h]
  by_cases hm : m < numbers.length
  · rw [if_pos (by omega), List.getElem?_reverse hm]
  · rw [if_neg (by omega), List.getElem?_eq_none (by simpa using hm),
      List.getElem?_eq_none (by simpa using hm)]

theorem flipLoop_eq (template flipped : Template) :
    flipLoop template flipped = flipped ++ template.map List.reverse := by
  induction template generalizing flipped with
  | nil => simp [flipLoop]
  | cons row rest ih => simp [flipLoop, ih, reverse_eq]

/-- The mirror of a template is the template with every row reversed. -/
theorem flipHorizontal_eq (template : Template) :
    flipHorizontal template = template.map List.reverse := by
  simp [flipHorizontal, flipLoop_eq]

theorem firstInRow_none (tag : Int) (row : Row) (dx : Nat) :
    firstInRow tag row dx = none ↔ tag ∉ row := by
  induction row generalizing dx with
  | nil => simp [firstInRow]
  | cons t rest ih =>
    unfold firstInRow
    by_cases h : t = tag
    · simp [h]
    · rw [if_neg h, ih]
      simp [Ne.symm h]

theorem firstInRow_some (tag : Int) (row : Row) (d dx : Nat)
    (h : firstInRow tag row d = some dx) :
    d ≤ dx ∧ row[dx - d]? = some tag ∧ ∀ j, j < dx - d → row[j]? ≠ some tag := by
  induction row generalizing d with
  | nil => simp [firstInRow] at h
  | cons t rest ih =>
    unfold firstInRow at h
    by_cases ht : t = tag
    · rw [if_pos ht] at h
      have hd : d = dx := by simpa using h
      subst hd
      simp [ht]
    · rw [if_neg ht] at h
      obtain ⟨h1, h2, h3⟩ := ih (d + 1) h
      have hsub : dx - d = (dx - (d + 1)) + 1 := by omega
      refine ⟨by omega, ?_, ?_⟩
      · rw [hsub, List.getElem?_cons_succ]; exact h2
      · intro j hj
        cases j with
        | zero => simpa using ht
        | succ j => rw [List.getElem?_cons_succ]; exact h3 j (by omega)

theorem firstCell_none (tag : Int) (template : Template) (dy : Nat) :
    firstCell tag template dy = none ↔ ∀ row ∈ template, tag ∉ row := by
  induction template generalizing dy with
  | nil => simp [firstCell]
  | cons row rest ih =>
    unfold firstCell
    cases hrow : firstInRow tag row 0 with
    | none =>
      have h0 := (firstInRow_none tag row 0).mp hrow
      simp only [ih, List.mem_cons, forall_eq_or_imp]
      exact ⟨fun h => ⟨h0, h⟩, fun h => h.2⟩
    | some dx =>
      have h0 : ¬ tag ∉ row := by
        rw [← firstInRow_none tag row 0, hrow]; simp
      simp only [List.mem_cons, forall_eq_or_imp]
      constructor
      · intro h; cases h
      · intro h; exact absurd h.1 h0

theorem firstCell_some (tag : Int) (template : Template) (d dx dy : Nat)
    (h : firstCell tag template d = some (dx, dy)) :
    d ≤ dy ∧ ∃ row, template[dy - d]? = some row ∧ row[dx]? = some tag ∧
      (∀ j, j < dx → row[j]? ≠ some tag) ∧
      ∀ k, k < dy - d → ∀ r, template[k]? = some r → tag ∉ r := by
  induction template generalizing d with
  | nil => simp [firstCell] at h
  | cons row rest ih =>
    unfold firstCell at h
    cases hrow : firstInRow tag row 0 with
    | none =>
      rw [hrow] at h
      obtain ⟨h1, r, h2, h3, h4, h5⟩ := ih (d + 1) h
      have hsub : dy - d = (dy - (d + 1)) + 1 := by omega
      refine ⟨by omega, r, ?_, h3, h4, ?_⟩
      · rw [hsub, List.getElem?_cons_succ]; exact h2
      · intro k hk r1 hr1
        cases k with
        | zero =>
          have : row = r1 := by simpa using hr1
          subst this
          exact (firstInRow_none tag row 0).mp hrow
        | succ k =>
          rw [List.getElem?_cons_succ] at hr1
          exact h5 k (by omega) r1 hr1
    | some c =>
      rw [hrow] at h
      have hc : c = dx ∧ d = dy := by simpa using h
      obtain ⟨hc1, hc2⟩ := hc
      subst hc1 hc2
      obtain ⟨_, h2, h3⟩ := firstInRow_some tag row 0 c hrow
      refine ⟨le_refl _, row, by simp, by simpa using h2, ?_, ?_⟩
      · intro j hj; exact h3 j (by simpa using hj)
      · intro k hk; omega

theorem expandLoop_append (catalog acc : List Template) :
    expandLoop catalog acc = acc ++ expandLoop catalog [] := by
  induction catalog generalizing acc with
  | nil => simp [expandLoop]
  | cons t rest ih =>
    unfold expandLoop
    rw [ih, ih ([] ++ [t] ++ [flipHorizontal t])]
    simp

theorem expand_cons (t : Template) (rest : List Template) :
    expand (t :: rest) = t :: flipHorizontal t :: expand rest := by
  unfold expand
  rw [expandLoop, expandLoop_append]
  simp

theorem expand_length (catalog : List Template) :
    (expand catalog).length = 2 * catalog.length := by
  induction catalog with
  | nil => simp [expand, expandLoop]
  | cons t rest ih => rw [expand_cons]; simp [ih]; omega

theorem expand_getElem? (catalog : List Template) (i : Nat) :
    (expand catalog)[2 * i]? = catalog[i]? ∧
    (expand catalog)[2 * i + 1]? = catalog[i]?.map flipHorizontal := by
  induction catalog generalizing i with
  | nil => simp [expand, expandLoop]
  | cons t rest ih =>
    rw [expand_cons]
    cases i with
    | zero => simp
    | succ i =>
      have h1 : 2 * (i + 1) = (2 * i + 1) + 1 := by omega
      rw [h1]
      simp only [List.getElem?_cons_succ]
      exact ih i

/-! ## Lemmas on the scan -/

theorem rowTest_true_iff (img : Image) (x y dy : Nat) (bodyColor visorColor : NRGBA)
    (row : Row) (d : Nat) :
    rowTest img x y dy bodyColor visorColor row d = true ↔
      ∀ j t, row[j]? = some t →
        cellTest t (img.At (x + (d + j)) (y + dy)) bodyColor visorColor = true := by
  induction row generalizing d with
  | nil => simp [rowTest]
  | cons t rest ih =>
    unfold rowTest
    constructor
    · intro h j u hu
      by_cases hc : cellTest t (img.At (x + d) (y + dy)) bodyColor visorColor = true
      · rw [if_pos hc] at h
        cases j with
        | zero =>
          have : t = u := by simpa using hu
          subst this
          simpa using hc
        | succ j =>
          rw [List.getElem?_cons_succ] at hu
          have := (ih (d + 1)).mp h j u hu
          rwa [show d + 1 + j = d + (j + 1) by omega] at this
      · rw [if_neg hc] at h; cases h
    · intro h
      have h0 := h 0 t (by simp)
      rw [Nat.add_zero] at h0
      rw [if_pos h0]
      refine (ih (d + 1)).mpr ?_
      intro j u hu
      have := h (j + 1) u (by simpa using hu)
      rwa [show d + (j + 1) = d + 1 + j by omega] at this

theorem gridTest_true_iff (img : Image) (x y : Nat) (bodyColor visorColor : NRGBA)
    (template : Template) (d : Nat) :
    gridTest img x y bodyColor visorColor template d = true ↔
      ∀ k row, template[k]? = some row →
        rowTest img x y (d + k) bodyColor visorColor row 0 = true := by
  induction template generalizing d with
  | nil => simp [gridTest]
  | cons r rest ih =>
    unfold gridTest
    constructor
    · intro h k row hrow
      by_cases hc : rowTest img x y d bodyColor visorColor r 0 = true
      · rw [if_pos hc] at h
        cases k with
        | zero =>
          have : r = row := by simpa using hrow
          subst this
          simpa using hc
        | succ k =>
          rw [List.getElem?_cons_succ] at hrow
          have := (ih (d + 1)).mp h k row hrow
          rwa [show d + 1 + k = d + (k + 1) by omega] at this
      · rw [if_neg hc] at h; cases h
    · intro h
      have h0 := h 0 r (by simp)
      rw [Nat.add_zero] at h0
      rw [if_pos h0]
      refine (ih (d + 1)).mpr ?_
      intro k row hrow
      have := h (k + 1) row (by simpa using hrow)
      rwa [show d + (k + 1) = d + 1 + k by omega] at this

/-- The cell loops accept a template exactly when every cell passes. -/
theorem gridTest_cells (img : Image) (x y : Nat) (bodyColor visorColor : NRGBA)
    (template : Template) :
    gridTest img x y bodyColor visorColor template 0 = true ↔
      ∀ dy row dx t, template[dy]? = some row → row[dx]? = some t →
        cellTest t (img.At (x + dx) (y + dy)) bodyColor visorColor = true := by
  rw [gridTest_true_iff]
  constructor
  · intro h dy row dx t hrow ht
    have := (rowTest_true_iff img x y (0 + dy) bodyColor visorColor row 0).mp
      (h dy row hrow) dx t ht
    simpa using this
  · intro h k row hrow
    refine (rowTest_true_iff img x y (0 + k) bodyColor visorColor row 0).mpr ?_
    intro j t ht
    simpa using h k row j t hrow ht

/-- With every anchor present the variant loop does not panic and returns the
first variant of the library that passes. -/
theorem findMatch_eq (img outImg : Image) (x y : Nat) (lib : List Template)
    (hlib : anchored lib) :
    findMatch img outImg x y lib = some (lib.find? (variantPasses img outImg x y)) := by
  induction lib with
  | nil => simp [findMatch]
  | cons t rest ih =>
    have ht := hlib t (List.mem_cons_self _ _)
    have hrest : anchored rest := fun u hu => hlib u (List.mem_cons_of_mem _ hu)
    obtain ⟨hb, hv⟩ := ht
    obtain ⟨⟨bx, bY⟩, hb⟩ := Option.isSome_iff_exists.mp hb
    obtain ⟨⟨vx, vY⟩, hv⟩ := Option.isSome_iff_exists.mp hv
    unfold findMatch
    rw [hb, hv]
    simp only [List.find?_cons, variantPasses, hb, hv, ih hrest]
    by_cases h1 : isSame (img.At (x + bx) (y + bY)) (img.At (x + vx) (y + vY)) 16 = true
    · simp [h1]
    · by_cases h2 : (outImg.At x y).A = 0
      · by_cases h3 : gridTest img x y (img.At (x + bx) (y + bY))
            (img.At (x + vx) (y + vY)) t 0 = true
        · simp [h1, h2, h3]
        · simp [h1, h2, h3]
      · simp [h1, h2]

theorem foldlM_isSome {σ α : Type} (f : σ → α → Option σ)
    (hf : ∀ s a, (f s a).isSome = true) (l : List α) (s : σ) :
    (l.foldlM f s).isSome = true := by
  induction l generalizing s with
  | nil => simp
  | cons a rest ih =>
    rw [List.foldlM_cons]
    obtain ⟨s1, hs1⟩ := Option.isSome_iff_exists.mp (hf s a)
    rw [hs1]
    exact ih s1

theorem visit_isSome (img : Image) (lib : List Template) (hlib : anchored lib)
    (s : ScanState) (x y : Nat) : (visit img lib s x y).isSome = true := by
  unfold visit
  rw [findMatch_eq img s.outImg x y lib hlib]
  cases List.find? (variantPasses img s.outImg x y) lib <;> simp

/-- With every anchor present the whole scan runs to its end. -/
theorem scan_isSome (img : Image) (lib : List Template) (hlib : anchored lib) :
    (scan img lib).isSome = true := by
  unfold scan
  apply foldlM_isSome
  intro s x
  unfold scanColumn
  apply foldlM_isSome
  intro s1 y
  exact visit_isSome img lib hlib s1 x y

/-! ## Properties of the colour comparator -/

/-- C1: the claim that `isSame` compares the unbounded Manhattan distance with
the tolerance fails at `(255,1,0,0)` against `(0,0,0,0)`: the distance is 256,
the `uint8` sum in `diff` wraps to 0, and `isSame` with tolerance 6 is true
although `256 < 6` is false. -/
theorem diff_wraps_past_255 :
    manhattan ⟨255, 1, 0, 0⟩ ⟨0, 0, 0, 0⟩ = 256 ∧
    diff ⟨255, 1, 0, 0⟩ ⟨0, 0, 0, 0⟩ = 0 ∧
    isSame ⟨255, 1, 0, 0⟩ ⟨0, 0, 0, 0⟩ 6 = true ∧
    ¬ (manhattan ⟨255, 1, 0, 0⟩ ⟨0, 0, 0, 0⟩ < 6) := by
  decide

/-! ## Properties of Background cells -/

theorem cellTest_BG (pixel bodyColor visorColor : NRGBA) :
    cellTest BG pixel bodyColor visorColor = !isSame pixel bodyColor 6 := by
  have h1 : Int.land BG BODY = 0 := by decide
  have h2 : Int.land BG VISOR = 0 := by decide
  have h3 : Int.land BG BG ≠ 0 := by decide
  have h4 : BG ≠ ANY := by decide
  unfold cellTest
  cases h : isSame pixel bodyColor 6 <;> simp [h1, h2, h3, h4]

/-- C2, as stated, fails: a Background cell whose pixel equals the body-anchor
colour is within tolerance 6 and does not pass; and in `edgeSprite` the
Background cell of base template 8 lies over a pixel at distance exactly 6 from
the body-anchor colour, yet that variant is the accepted match at origin
`(0, 0)`. -/
theorem background_cell_counterexample :
    (isSame ⟨10, 20, 30, 255⟩ ⟨10, 20, 30, 255⟩ 6 = true ∧
      cellTest BG ⟨10, 20, 30, 255⟩ ⟨10, 20, 30, 255⟩ ⟨0, 0, 0, 255⟩ = false) ∧
    (templates[16]? = some template8 ∧
      bodyPoint template8 = some (0, 0) ∧
      (template8[3]?.bind fun row => row[1]?) = some BG ∧
      manhattan (edgeSprite.At 1 3) (edgeSprite.At 0 0) = 6 ∧
      diff (edgeSprite.At 1 3) (edgeSprite.At 0 0) = 6 ∧
      findMatch edgeSprite (newNRGBA 3 4) 0 0 templates = some (some template8)) := by
  decide

/-- C2, amended: a Background cell passes exactly when the pixel under it is
NOT within tolerance 6 of the body-anchor colour. A pixel at distance exactly 6
passes, and a template with a Background cell over a pixel within tolerance 6
(distance below 6) fails the cell-by-cell test at that origin. -/
theorem background_cell_rule (img : Image) (x y : Nat) (bodyColor visorColor : NRGBA)
    (template : Template) (dy dx : Nat) (row : Row)
    (hrow : template[dy]? = some row) (hcell : row[dx]? = some BG) :
    (cellTest BG (img.At (x + dx) (y + dy)) bodyColor visorColor =
        !isSame (img.At (x + dx) (y + dy)) bodyColor 6) ∧
    (diff (img.At (x + dx) (y + dy)) bodyColor = 6 →
        cellTest BG (img.At (x + dx) (y + dy)) bodyColor visorColor = true) ∧
    (isSame (img.At (x + dx) (y + dy)) bodyColor 6 = true →
        gridTest img x y bodyColor visorColor template 0 = false) := by
  refine ⟨cellTest_BG _ _ _, ?_, ?_⟩
  · intro h
    rw [cellTest_BG]
    simp [isSame, h]
  · intro h
    cases hg : gridTest img x y bodyColor visorColor template 0 with
    | false => rfl
    | true =>
      have hc := (gridTest_cells img x y bodyColor visorColor template).mp hg
        dy row dx BG hrow hcell
      rw [cellTest_BG, h] at hc
      cases hc

/-- The Background rule of C2 at the Background cell of base template 8 placed
on `edgeSprite` at origin `(0, 0)`. -/
theorem background_cell_rule_witness :
    template8[3]? = some [BODY, BG, BODY] ∧ [BODY, BG, BODY][1]? = some BG ∧
    ((cellTest BG (edgeSprite.At (0 + 1) (0 + 3)) (edgeSprite.At 0 0) (edgeSprite.At 1 1) =
        !isSame (edgeSprite.At (0 + 1) (0 + 3)) (edgeSprite.At 0 0) 6) ∧
    (diff (edgeSprite.At (0 + 1) (0 + 3)) (edgeSprite.At 0 0) = 6 →
        cellTest BG (edgeSprite.At (0 + 1) (0 + 3)) (edgeSprite.At 0 0)
          (edgeSprite.At 1 1) = true) ∧
    (isSame (edgeSprite.At (0 + 1) (0 + 3)) (edgeSprite.At 0 0) 6 = true →
        gridTest edgeSprite 0 0 (edgeSprite.At 0 0) (edgeSprite.At 1 1) template8 0 = false)) :=
  ⟨by decide, by decide,
    background_cell_rule edgeSprite 0 0 (edgeSprite.At 0 0) (edgeSprite.At 1 1) template8 3 1
      [BODY, BG, BODY] (by decide) (by decide)⟩

/-! ## Properties of the claim and dimming writes -/

/-- C3: the claim fails on `clearSprite`. Base template 8 is accepted at origin
`(0, 0)`, and its Body cell at `(0, 1)` is written with the source pixel
`(100,0,0,0)` by the claim step. That pixel has alpha 0, so the visit of
`(0, 1)` takes it for unclaimed and the dimming write replaces it: after the
full scan `(0, 1)` holds `(0,0,0,0)`, not the source pixel. -/
theorem transparent_claim_is_dimmed :
    findMatch clearSprite (newNRGBA 3 4) 0 0 templates = some (some template8) ∧
    (template8[1]?.bind fun row => row[0]?) = some BODY ∧
    clearSprite.At 0 1 = ⟨100, 0, 0, 0⟩ ∧
    (visit clearSprite templates ⟨newNRGBA 3 4, 0⟩ 0 0).map
        (fun s => s.outImg.At 0 1) = some ⟨100, 0, 0, 0⟩ ∧
    ((visit clearSprite templates ⟨newNRGBA 3 4, 0⟩ 0 0).bind
        fun s => visit clearSprite templates s 0 1).map
        (fun s => s.outImg.At 0 1) = some ⟨0, 0, 0, 0⟩ ∧
    (scan clearSprite templates).map (fun s => s.outImg.At 0 1) = some ⟨0, 0, 0, 0⟩ := by
  decide

set_option maxRecDepth 100000 in
theorem widen_eq : ∀ c < 256, widen c = c * 257 := by
  decide

set_option maxRecDepth 100000 in
theorem widen_high_byte : ∀ c < 256, (widen c >>> 8) % 256 = c := by
  decide

/-- The dimming write keeps the alpha of the source pixel. -/
theorem nrgbaModel_dimmed_alpha (c : NRGBA) (hc : c.valid) :
    (nrgbaModel (dimmedColor c)).A = c.A := by
  obtain ⟨_, _, _, hA⟩ := hc
  have hw := widen_eq c.A hA
  unfold nrgbaModel dimmedColor
  by_cases h1 : widen c.A = 0xffff
  · simp only [h1, if_true]
    omega
  · by_cases h2 : widen c.A = 0
    · simp only [h2]
      simp only [Nat.reduceEqDiff, if_false, if_true]
      omega
    · simp only [h1, h2, if_false]
      exact widen_high_byte c.A hA

/-- For an opaque source pixel the dimming write stores `(R/4, G/4, B/4, 255)`. -/
theorem nrgbaModel_dimmed_full_alpha (c : NRGBA) (hc : c.valid) (hA : c.A = 255) :
    nrgbaModel (dimmedColor c) = ⟨c.R / 4, c.G / 4, c.B / 4, 255⟩ := by
  obtain ⟨hR, hG, hB, _⟩ := hc
  have hw : widen 255 = 0xffff := by decide
  unfold nrgbaModel dimmedColor
  simp only [hA, hw, if_true]
  rw [widen_high_byte (c.R / 4) (by omega), widen_high_byte (c.G / 4) (by omega),
    widen_high_byte (c.B / 4) (by omega)]

/-- C4: the claim fails for a source pixel that is not opaque. For the source
pixel `(200,100,50,128)` the dimming step builds `(50,25,12,128)` as an
alpha-premultiplied `color.RGBA`, and storing it in the NRGBA canvas divides
the colour channels by alpha: the stored pixel is `(99,49,23,128)`. -/
theorem dimmed_pixel_half_alpha :
    ((newNRGBA 1 1).At 0 0).A = 0 ∧
    halfPixel.At 0 0 = ⟨200, 100, 50, 128⟩ ∧
    dimmedColor (halfPixel.At 0 0) = ⟨50, 25, 12, 128⟩ ∧
    (dim halfPixel (newNRGBA 1 1) 0 0).At 0 0 = ⟨99, 49, 23, 128⟩ ∧
    (scan halfPixel templates).map (fun s => s.outImg.At 0 0) = some ⟨99, 49, 23, 128⟩ := by
  decide

/-! ## Properties of the variant loop -/

/-- C5: at every origin, for a library whose variants all have their anchors,
the variant loop returns at most one variant; it returns none exactly when no
variant passes the pre-checks and the cell tests, and otherwise the variant it
returns is the one at the smallest passing index. The match count grows by one
when a variant is returned and by zero otherwise. The result is a function of
the picture, the canvas and the origin. -/
theorem first_match_wins (img : Image) (lib : List Template) (hlib : anchored lib)
    (s : ScanState) (x y : Nat) :
    ∃ matched s1, findMatch img s.outImg x y lib = some matched ∧
      visit img lib s x y = some s1 ∧
      (matched = none ↔ ∀ t ∈ lib, variantPasses img s.outImg x y t = false) ∧
      (∀ t, matched = some t → ∃ i : Nat, lib[i]? = some t ∧
        variantPasses img s.outImg x y t = true ∧
        ∀ (j : Nat) (u : Template), j < i → lib[j]? = some u → variantPasses img s.outImg x y u = false) ∧
      s1.count = s.count + (if matched.isSome then 1 else 0) := by
  have hfind := findMatch_eq img s.outImg x y lib hlib
  refine ⟨lib.find? (variantPasses img s.outImg x y), ?_, hfind, ?_, ?_, ?_, ?_⟩
  · exact match lib.find? (variantPasses img s.outImg x y) with
      | none => ⟨dim img s.outImg x y, s.count⟩
      | some m => ⟨claim img x y m 0 (dim img s.outImg x y), s.count + 1⟩
  · unfold visit
    rw [hfind]
    cases lib.find? (variantPasses img s.outImg x y) <;> rfl
  · simp [List.find?_eq_none]
  · intro t ht
    obtain ⟨hp, as, bs, hsplit, has⟩ := List.find?_eq_some.mp ht
    refine ⟨as.length, ?_, hp, ?_⟩
    · rw [hsplit, List.getElem?_append_right (le_refl _)]; simp
    · intro j u hj hu
      rw [hsplit, List.getElem?_append_left hj] at hu
      have hmem : u ∈ as := List.getElem?_mem hu
      simpa using has u hmem
  · cases lib.find? (variantPasses img s.outImg x y) <;> rfl

/-- The first-match rule of C5 for the reference library on `edgeSprite` at
origin `(0, 0)` with a fresh canvas. -/
theorem first_match_wins_witness :
    anchored templates ∧
    ∃ matched s1, findMatch edgeSprite (newNRGBA 3 4) 0 0 templates = some matched ∧
      visit edgeSprite templates ⟨newNRGBA 3 4, 0⟩ 0 0 = some s1 ∧
      (matched = none ↔
        ∀ t ∈ templates, variantPasses edgeSprite (newNRGBA 3 4) 0 0 t = false) ∧
      (∀ t, matched = some t → ∃ i : Nat, templates[i]? = some t ∧
        variantPasses edgeSprite (newNRGBA 3 4) 0 0 t = true ∧
        ∀ (j : Nat) (u : Template), j < i → templates[j]? = some u →
          variantPasses edgeSprite (newNRGBA 3 4) 0 0 u = false) ∧
      s1.count = 0 + (if matched.isSome then 1 else 0) :=
  ⟨by decide, first_match_wins edgeSprite templates (by decide) ⟨newNRGBA 3 4, 0⟩ 0 0⟩

/-! ## Properties of mirroring, anchors and the library -/

/-- C6: mirroring twice gives the template back, for every jagged grid (empty
rows and the empty template included), so the anchor lookups give the same
result (same anchor, or the same failure) on the twice-mirrored template. -/
theorem flipHorizontal_involutive (template : Template) :
    flipHorizontal (flipHorizontal template) = template ∧
    bodyPoint (flipHorizontal (flipHorizontal template)) = bodyPoint template ∧
    visorPoint (flipHorizontal (flipHorizontal template)) = visorPoint template := by
  have h : flipHorizontal (flipHorizontal template) = template := by
    rw [flipHorizontal_eq, flipHorizontal_eq, List.map_map]
    have hid : (List.reverse ∘ List.reverse : Row → Row) = id := by
      funext r; simp
    rw [hid, List.map_id]
  rw [h]
  exact ⟨rfl, rfl, rfl⟩

/-- C7: the mirror of a template has as many rows as the template; row `i` of
the mirror has the length of row `i` of the template, and its cell `j` is cell
`len - 1 - j` of that row. The template is a value and is not changed. -/
theorem flipHorizontal_rows (template : Template) :
    (flipHorizontal template).length = template.length ∧
    ∀ (i : Nat) (row : Row), template[i]? = some row →
      ∃ mirrored : Row, (flipHorizontal template)[i]? = some mirrored ∧
        mirrored = reverse row ∧
        mirrored.length = row.length ∧
        ∀ j : Nat, j < row.length → mirrored[j]? = row[row.length - 1 - j]? := by
  rw [flipHorizontal_eq]
  refine ⟨by simp, ?_⟩
  intro i row hrow
  refine ⟨row.reverse, by simp [hrow], (reverse_eq row).symm, by simp, ?_⟩
  intro j hj
  exact List.getElem?_reverse hj

/-- C8: `bodyPoint` fails exactly when no cell of the template equals `BODY`,
and otherwise returns the column and row of the first such cell in row-major
order: no earlier row holds one, and no earlier column of that row does. The
same holds for `visorPoint` and `VISOR`. -/
theorem anchor_is_first_cell (template : Template) :
    (bodyPoint template = none ↔ ∀ row ∈ template, BODY ∉ row) ∧
    (∀ dx dy : Nat, bodyPoint template = some (dx, dy) →
      ∃ row : Row, template[dy]? = some row ∧ row[dx]? = some BODY ∧
        (∀ j : Nat, j < dx → row[j]? ≠ some BODY) ∧
        ∀ (k : Nat) (r : Row), k < dy → template[k]? = some r → BODY ∉ r) ∧
    (visorPoint template = none ↔ ∀ row ∈ template, VISOR ∉ row) ∧
    (∀ dx dy : Nat, visorPoint template = some (dx, dy) →
      ∃ row : Row, template[dy]? = some row ∧ row[dx]? = some VISOR ∧
        (∀ j : Nat, j < dx → row[j]? ≠ some VISOR) ∧
        ∀ (k : Nat) (r : Row), k < dy → template[k]? = some r → VISOR ∉ r) := by
  refine ⟨firstCell_none BODY template 0, ?_, firstCell_none VISOR template 0, ?_⟩
  · intro dx dy h
    obtain ⟨_, row, h1, h2, h3, h4⟩ := firstCell_some BODY template 0 dx dy h
    exact ⟨row, by simpa using h1, h2, h3, fun k r hk hr => h4 k (by simpa using hk) r hr⟩
  · intro dx dy h
    obtain ⟨_, row, h1, h2, h3, h4⟩ := firstCell_some VISOR template 0 dx dy h
    exact ⟨row, by simpa using h1, h2, h3, fun k r hk hr => h4 k (by simpa using hk) r hr⟩

/-- C9: the library built from the catalog has 2 x 9 = 18 variants; for every
catalog of `n` templates the library has `2n` variants, with base template `i`
at index `2i` and its mirror at index `2i+1`. -/
theorem library_interleaves :
    baseTemplates.length = 9 ∧ templates.length = 18 ∧
    (∀ i : Nat, i < 9 → templates[2 * i]? = baseTemplates[i]? ∧
      templates[2 * i + 1]? = baseTemplates[i]?.map flipHorizontal) ∧
    ∀ catalog : List Template, (expand catalog).length = 2 * catalog.length ∧
      ∀ i : Nat, (expand catalog)[2 * i]? = catalog[i]? ∧
        (expand catalog)[2 * i + 1]? = catalog[i]?.map flipHorizontal := by
  refine ⟨by decide, ?_, ?_, ?_⟩
  · exact expand_length baseTemplates
  · intro i _
    exact expand_getElem? baseTemplates i
  · intro catalog
    exact ⟨expand_length catalog, expand_getElem? catalog⟩

/-- C10: both anchor lookups succeed on each of the 18 variants of the
library, and the scan of any picture with this library runs to its end without
reaching a panic of an anchor lookup. -/
theorem library_anchors_exist :
    templates.length = 18 ∧
    (∀ t ∈ templates, (bodyPoint t).isSome = true ∧ (visorPoint t).isSome = true) ∧
    ∀ img : Image, (scan img templates).isSome = true := by
  have h : anchored templates := by decide
  exact ⟨by decide, h, fun img => scan_isSome img templates h⟩

/-! ## Properties of a malformed catalog -/

theorem mem_expand (catalog : List Template) (t : Template) (ht : t ∈ catalog) :
    t ∈ expand catalog := by
  induction catalog with
  | nil => cases ht
  | cons u rest ih =>
    rw [expand_cons]
    rcases List.mem_cons.mp ht with h | h
    · subst h; exact List.mem_cons_self _ _
    · exact List.mem_cons_of_mem _ (List.mem_cons_of_mem _ (ih h))

/-- A variant returned by the variant loop passes the pre-checks and the cell
tests. -/
theorem findMatch_some_passes (img outImg : Image) (x y : Nat) (lib : List Template)
    (t : Template) (h : findMatch img outImg x y lib = some (some t)) :
    t ∈ lib ∧ variantPasses img outImg x y t = true := by
  induction lib with
  | nil => simp [findMatch] at h
  | cons u rest ih =>
    unfold findMatch at h
    cases hb : bodyPoint u with
    | none => rw [hb] at h; cases h
    | some pb =>
      obtain ⟨bx, bY⟩ := pb
      cases hv : visorPoint u with
      | none => rw [hb, hv] at h; cases h
      | some pv =>
        obtain ⟨vx, vY⟩ := pv
        rw [hb, hv] at h
        simp only at h
        by_cases h1 : isSame (img.At (x + bx) (y + bY)) (img.At (x + vx) (y + vY)) 16 = true
        · rw [if_pos h1] at h
          obtain ⟨hm, hp⟩ := ih h
          exact ⟨List.mem_cons_of_mem _ hm, hp⟩
        · rw [if_neg h1] at h
          by_cases h2 : (outImg.At x y).A ≠ 0
          · rw [if_pos h2] at h
            obtain ⟨hm, hp⟩ := ih h
            exact ⟨List.mem_cons_of_mem _ hm, hp⟩
          · rw [if_neg h2] at h
            by_cases h3 : gridTest img x y (img.At (x + bx) (y + bY))
                (img.At (x + vx) (y + vY)) u 0 = true
            · rw [if_pos h3] at h
              have hu : u = t := by simpa using h
              subst hu
              refine ⟨List.mem_cons_self _ _, ?_⟩
              have h2' : (outImg.At x y).A = 0 := by simpa using h2
              simp [variantPasses, hb, hv, h1, h2', h3]
            · rw [if_neg h3] at h
              obtain ⟨hm, hp⟩ := ih h
              exact ⟨List.mem_cons_of_mem _ hm, hp⟩

/-- The variant loop panics when the library holds a variant without an anchor
and no variant passes at the origin. -/
theorem findMatch_panics (img outImg : Image) (x y : Nat) (lib : List Template)
    (hbad : ∃ t ∈ lib, bodyPoint t = none ∨ visorPoint t = none)
    (hnone : ∀ t ∈ lib, variantPasses img outImg x y t = false) :
    findMatch img outImg x y lib = none := by
  induction lib with
  | nil => obtain ⟨t, ht, _⟩ := hbad; cases ht
  | cons u rest ih =>
    unfold findMatch
    cases hb : bodyPoint u with
    | none => rfl
    | some pb =>
      obtain ⟨bx, bY⟩ := pb
      cases hv : visorPoint u with
      | none => rfl
      | some pv =>
        obtain ⟨vx, vY⟩ := pv
        have hrest : findMatch img outImg x y rest = none := by
          apply ih
          · obtain ⟨t, ht, hmal⟩ := hbad
            rcases List.mem_cons.mp ht with h | h
            · subst h
              rw [hb, hv] at hmal
              rcases hmal with h | h <;> cases h
            · exact ⟨t, h, hmal⟩
          · intro t ht; exact hnone t (List.mem_cons_of_mem _ ht)
        have hu := hnone u (List.mem_cons_self _ _)
        simp only [variantPasses, hb, hv] at hu
        simp only [hrest]
        by_cases h1 : isSame (img.At (x + bx) (y + bY)) (img.At (x + vx) (y + vY)) 16 = true
        · rw [if_pos h1]
        · rw [if_neg h1]
          by_cases h2 : (outImg.At x y).A ≠ 0
          · rw [if_pos h2]
          · rw [if_neg h2]
            have h2' : (outImg.At x y).A = 0 := by simpa using h2
            have h3 : gridTest img x y (img.At (x + bx) (y + bY))
                (img.At (x + vx) (y + vY)) u 0 = false := by
              simpa [h1, h2'] using hu
            simp [h3]

theorem foldlM_const_some {σ α : Type} (l : List α) (s : σ) :
    l.foldlM (fun (s : σ) (_ : α) => (some s : Option σ)) s = some s := by
  induction l generalizing s with
  | nil => rfl
  | cons a rest ih => rw [List.foldlM_cons]; exact ih s

/-- A picture without pixels is scanned without visiting any origin. -/
theorem scan_no_pixels (img : Image) (lib : List Template) (h : img.w = 0 ∨ img.h = 0) :
    scan img lib = some ⟨newNRGBA img.w img.h, 0⟩ := by
  unfold scan
  rcases h with h | h
  · rw [h]; rfl
  · have hcol : (fun s x => scanColumn img lib x s) =
        (fun (s : ScanState) (_ : Nat) => (some s : Option ScanState)) := by
      funext s x
      unfold scanColumn
      rw [h]; rfl
    rw [hcol]
    exact foldlM_const_some _ _

/-- A panic at the first origin is a panic of the scan. -/
theorem scan_panics_at_first (img : Image) (lib : List Template) (hw : 0 < img.w)
    (hh : 0 < img.h) (h : visit img lib ⟨newNRGBA img.w img.h, 0⟩ 0 0 = none) :
    scan img lib = none := by
  unfold scan
  obtain ⟨w1, hw1⟩ := Nat.exists_eq_succ_of_ne_zero (Nat.pos_iff_ne_zero.mp hw)
  obtain ⟨h1, hh1⟩ := Nat.exists_eq_succ_of_ne_zero (Nat.pos_iff_ne_zero.mp hh)
  have hcol : scanColumn img lib 0 ⟨newNRGBA img.w img.h, 0⟩ = none := by
    unfold scanColumn
    rw [hh1, List.range_succ_eq_map, List.foldlM_cons, ← hh1, h]
    rfl
  rw [hw1, List.range_succ_eq_map, List.foldlM_cons, ← hw1, hcol]
  rfl

/-- C11, as stated, fails: with the catalog `[bodyOnly]`, whose only template
has no Visor cell, building the library gives its two variants, and the scan
of a picture of width 0 runs to its end with count 0: no failure occurs. With a
picture of one pixel the same library makes the scan loop fail. -/
theorem malformed_catalog_counterexample :
    visorPoint bodyOnly = none ∧
    (expand [bodyOnly]).length = 2 ∧
    emptyPicture.w = 0 ∧
    (scan emptyPicture (expand [bodyOnly])).map (fun s => s.count) = some 0 ∧
    (scan (uniform 1 1 ⟨9, 9, 9, 255⟩) (expand [bodyOnly])).isNone = true := by
  decide

/-- C11, amended: for a catalog holding a template without a Body cell or
without a Visor cell, building the library does not fail (it has twice as many
variants as the catalog has templates, the malformed one among them). The
failure is raised by the scan loop and depends on the picture: for a picture
of width 0 or height 0 the scan ends with the fresh canvas and count 0, and
for a picture with at least one pixel the scan fails at origin `(0, 0)`
whenever no variant passes there. -/
theorem malformed_catalog_fails_in_scan (catalog : List Template) (t : Template)
    (ht : t ∈ catalog) (hbad : bodyPoint t = none ∨ visorPoint t = none) (img : Image) :
    (expand catalog).length = 2 * catalog.length ∧
    t ∈ expand catalog ∧
    (img.w = 0 ∨ img.h = 0 →
      scan img (expand catalog) = some ⟨newNRGBA img.w img.h, 0⟩) ∧
    (0 < img.w → 0 < img.h →
      (∀ u ∈ expand catalog, variantPasses img (newNRGBA img.w img.h) 0 0 u = false) →
      scan img (expand catalog) = none) := by
  refine ⟨expand_length catalog, mem_expand catalog t ht, scan_no_pixels img _, ?_⟩
  intro hw hh hnone
  apply scan_panics_at_first img _ hw hh
  unfold visit
  rw [findMatch_panics img _ 0 0 (expand catalog) ⟨t, mem_expand catalog t ht, hbad⟩ hnone]

/-- The amended C11 for the catalog `[bodyOnly]` and a picture of one pixel. -/
theorem malformed_catalog_fails_in_scan_witness :
    bodyOnly ∈ [bodyOnly] ∧ (bodyPoint bodyOnly = none ∨ visorPoint bodyOnly = none) ∧
    ((expand [bodyOnly]).length = 2 * [bodyOnly].length ∧
    bodyOnly ∈ expand [bodyOnly] ∧
    ((uniform 1 1 ⟨9, 9, 9, 255⟩).w = 0 ∨ (uniform 1 1 ⟨9, 9, 9, 255⟩).h = 0 →
      scan (uniform 1 1 ⟨9, 9, 9, 255⟩) (expand [bodyOnly]) =
        some ⟨newNRGBA (uniform 1 1 ⟨9, 9, 9, 255⟩).w (uniform 1 1 ⟨9, 9, 9, 255⟩).h, 0⟩) ∧
    (0 < (uniform 1 1 ⟨9, 9, 9, 255⟩).w → 0 < (uniform 1 1 ⟨9, 9, 9, 255⟩).h →
      (∀ u ∈ expand [bodyOnly],
        variantPasses (uniform 1 1 ⟨9, 9, 9, 255⟩)
          (newNRGBA (uniform 1 1 ⟨9, 9, 9, 255⟩).w (uniform 1 1 ⟨9, 9, 9, 255⟩).h)
          0 0 u = false) →
      scan (uniform 1 1 ⟨9, 9, 9, 255⟩) (expand [bodyOnly]) = none)) :=
  ⟨by decide, by decide,
    malformed_catalog_fails_in_scan [bodyOnly] bodyOnly (by decide) (by decide)
      (uniform 1 1 ⟨9, 9, 9, 255⟩)⟩

/-! ## Further properties of the colour comparator -/

theorem delta_comm (a b : Nat) : delta a b = delta b a := by
  unfold delta
  split <;> split <;> omega

theorem diff_eq_manhattan_mod (c1 c2 : NRGBA) : diff c1 c2 = manhattan c1 c2 % 256 := by
  unfold diff manhattan
  simp only []
  omega

theorem diff_comm (a b : NRGBA) : diff a b = diff b a := by
  unfold diff
  rw [delta_comm a.R b.R, delta_comm a.G b.G, delta_comm a.B b.B, delta_comm a.A b.A]

/-- C12: `diff` and `isSame` do not depend on the order of the two colours,
for every pair of colours and every tolerance. -/
theorem isSame_symmetric (a b : NRGBA) (tol : Nat) :
    isSame a b tol = isSame b a tol ∧ diff a b = diff b a := by
  have h : diff a b = diff b a := diff_comm a b
  exact ⟨by unfold isSame; rw [h], h⟩

/-- C19: each channel delta is the exact absolute difference (below 256 for
bytes), and `diff` is the Manhattan distance modulo 256. So `diff` equals the
Manhattan distance exactly when that distance is at most 255, and the colours
`(255,1,0,0)` and `(0,0,0,0)`, at distance 256, are the same colour for
`isSame` with tolerance 6. -/
theorem diff_is_manhattan_mod_256 :
    (∀ a b : Nat, (delta a b : Int) = |(a : Int) - (b : Int)|) ∧
    (∀ a b : Nat, a < 256 → b < 256 → delta a b < 256) ∧
    (∀ c1 c2 : NRGBA, diff c1 c2 = manhattan c1 c2 % 256) ∧
    (∀ c1 c2 : NRGBA, diff c1 c2 = manhattan c1 c2 ↔ manhattan c1 c2 ≤ 255) ∧
    manhattan ⟨255, 1, 0, 0⟩ ⟨0, 0, 0, 0⟩ = 256 ∧
    isSame ⟨255, 1, 0, 0⟩ ⟨0, 0, 0, 0⟩ 6 = true := by
  refine ⟨?_, ?_, diff_eq_manhattan_mod, ?_, by decide, by decide⟩
  · intro a b
    unfold delta
    split
    · rw [abs_of_nonneg (by omega)]; omega
    · rw [abs_of_nonpos (by omega)]; omega
  · intro a b ha hb
    unfold delta
    split <;> omega
  · intro c1 c2
    rw [diff_eq_manhattan_mod]
    constructor
    · intro h
      have := Nat.mod_lt (manhattan c1 c2) (by norm_num : 256 > 0)
      omega
    · intro h
      exact Nat.mod_eq_of_lt (by omega)

/-! ## Properties of the cell tests -/

theorem cellTest_BODY (pixel bodyColor visorColor : NRGBA) :
    cellTest BODY pixel bodyColor visorColor = isSame pixel bodyColor 8 := by
  have h1 : Int.land BODY BODY ≠ 0 := by decide
  have h2 : Int.land BODY VISOR = 0 := by decide
  have h3 : Int.land BODY BG = 0 := by decide
  have h4 : BODY ≠ ANY := by decide
  unfold cellTest
  cases h : isSame pixel bodyColor 8 <;> simp [h1, h2, h3, h4]

theorem cellTest_VISOR (pixel bodyColor visorColor : NRGBA) :
    cellTest VISOR pixel bodyColor visorColor = isSame pixel visorColor 8 := by
  have h1 : Int.land VISOR BODY = 0 := by decide
  have h2 : Int.land VISOR VISOR ≠ 0 := by decide
  have h3 : Int.land VISOR BG = 0 := by decide
  have h4 : VISOR ≠ ANY := by decide
  unfold cellTest
  cases h : isSame pixel visorColor 8 <;> simp [h1, h2, h3, h4]

theorem cellTest_ANY (pixel bodyColor visorColor : NRGBA) :
    cellTest ANY pixel bodyColor visorColor = true := by
  have h1 : Int.land ANY BODY = 0 := by decide
  have h2 : Int.land ANY VISOR = 0 := by decide
  have h3 : Int.land ANY BG = 0 := by decide
  unfold cellTest
  simp [h1, h2, h3]

/-- C16: a Body cell passes exactly when the pixel is within tolerance 8 of
the body-anchor colour, a Visor cell exactly when the pixel is within tolerance
8 of the visor-anchor colour, an `ANY` cell for every pixel; and the
cell-by-cell test of a template at an origin succeeds exactly when every cell
of the template passes. -/
theorem single_role_cells (img : Image) (x y : Nat) (pixel bodyColor visorColor : NRGBA)
    (template : Template) :
    cellTest BODY pixel bodyColor visorColor = isSame pixel bodyColor 8 ∧
    cellTest VISOR pixel bodyColor visorColor = isSame pixel visorColor 8 ∧
    cellTest ANY pixel bodyColor visorColor = true ∧
    (gridTest img x y bodyColor visorColor template 0 = true ↔
      ∀ (dy : Nat) (row : Row) (dx : Nat) (t : Int),
        template[dy]? = some row → row[dx]? = some t →
        cellTest t (img.At (x + dx) (y + dy)) bodyColor visorColor = true) :=
  ⟨cellTest_BODY _ _ _, cellTest_VISOR _ _ _, cellTest_ANY _ _ _,
    gridTest_cells img x y bodyColor visorColor template⟩

/-! ## Properties of the pre-checks -/

/-- C17: a variant whose body-anchor and visor-anchor colours at the origin are
within tolerance 16 of each other fails the pre-check, and the variant loop
does not return it, whatever the library and the other pixels are. -/
theorem indistinct_anchors_skip (img outImg : Image) (x y : Nat) (lib : List Template)
    (t : Template) (bodyX bodyY visorX visorY : Nat)
    (hb : bodyPoint t = some (bodyX, bodyY)) (hv : visorPoint t = some (visorX, visorY))
    (hsame : isSame (img.At (x + bodyX) (y + bodyY))
      (img.At (x + visorX) (y + visorY)) 16 = true) :
    variantPasses img outImg x y t = false ∧
    findMatch img outImg x y lib ≠ some (some t) := by
  have hp : variantPasses img outImg x y t = false := by
    simp [variantPasses, hb, hv, hsame]
  refine ⟨hp, ?_⟩
  intro h
  have := (findMatch_some_passes img outImg x y lib t h).2
  rw [hp] at this
  cases this

/-- C17 for the mirror of base template 8 on `edgeSprite`: both anchors lie on
body pixels. -/
theorem indistinct_anchors_skip_witness :
    bodyPoint (flipHorizontal template8) = some (0, 0) ∧
    visorPoint (flipHorizontal template8) = some (0, 1) ∧
    isSame (edgeSprite.At (0 + 0) (0 + 0)) (edgeSprite.At (0 + 0) (0 + 1)) 16 = true ∧
    (variantPasses edgeSprite (newNRGBA 3 4) 0 0 (flipHorizontal template8) = false ∧
    findMatch edgeSprite (newNRGBA 3 4) 0 0 templates ≠
      some (some (flipHorizontal template8))) :=
  ⟨by decide, by decide, by decide,
    indistinct_anchors_skip edgeSprite (newNRGBA 3 4) 0 0 templates
      (flipHorizontal template8) 0 0 0 1 (by decide) (by decide) (by decide)⟩

/-- The variant loop looks at the canvas only through the alpha of its pixel at
the origin: two canvases with the same alpha there give the same result. -/
theorem findMatch_origin_only (img out1 out2 : Image) (x y : Nat) (lib : List Template)
    (h : (out1.At x y).A = (out2.At x y).A) :
    findMatch img out1 x y lib = findMatch img out2 x y lib := by
  induction lib with
  | nil => rfl
  | cons t rest ih =>
    unfold findMatch
    rw [ih, h]

/-- C18: when the canvas pixel at the origin has non-zero alpha, every variant
is skipped: the variant loop returns no match, and the visit leaves the canvas
and the match count as they were. Only the canvas pixel at the origin is
looked at: the variant loop gives the same result on any two canvases whose
pixels at the origin have the same alpha, whatever the rest of their
footprints holds, so any canvas with non-zero alpha at the origin gives no
match. -/
theorem claimed_origin_is_skipped (img : Image) (lib : List Template) (hlib : anchored lib)
    (s : ScanState) (x y : Nat) (h : (s.outImg.At x y).A ≠ 0) :
    (∀ t ∈ lib, variantPasses img s.outImg x y t = false) ∧
    findMatch img s.outImg x y lib = some none ∧
    visit img lib s x y = some s ∧
    (∀ out1 out2 : Image, (out1.At x y).A = (out2.At x y).A →
      findMatch img out1 x y lib = findMatch img out2 x y lib) ∧
    (∀ other : Image, (other.At x y).A ≠ 0 → findMatch img other x y lib = some none) := by
  have hp : ∀ (out : Image), (out.At x y).A ≠ 0 →
      ∀ t ∈ lib, variantPasses img out x y t = false := by
    intro out hout t _
    unfold variantPasses
    split
    · simp [hout]
    · rfl
  have hf : ∀ (out : Image), (out.At x y).A ≠ 0 → findMatch img out x y lib = some none := by
    intro out hout
    rw [findMatch_eq img out x y lib hlib]
    congr 1
    exact List.find?_eq_none.mpr (fun t ht => by simp [hp out hout t ht])
  refine ⟨hp s.outImg h, hf s.outImg h, ?_,
    fun out1 out2 heq => findMatch_origin_only img out1 out2 x y lib heq, hf⟩
  unfold visit
  rw [hf s.outImg h]
  simp only [dim, if_neg h]

/-- C18 on `edgeSprite` with a canvas whose pixel at the origin `(0, 0)` holds
an opaque colour. -/
theorem claimed_origin_is_skipped_witness :
    anchored templates ∧
    (((newNRGBA 3 4).Set 0 0 ⟨100, 0, 0, 255⟩).At 0 0).A ≠ 0 ∧
    ((∀ t ∈ templates,
        variantPasses edgeSprite ((newNRGBA 3 4).Set 0 0 ⟨100, 0, 0, 255⟩) 0 0 t = false) ∧
    findMatch edgeSprite ((newNRGBA 3 4).Set 0 0 ⟨100, 0, 0, 255⟩) 0 0 templates = some none ∧
    visit edgeSprite templates ⟨(newNRGBA 3 4).Set 0 0 ⟨100, 0, 0, 255⟩, 7⟩ 0 0 =
      some ⟨(newNRGBA 3 4).Set 0 0 ⟨100, 0, 0, 255⟩, 7⟩ ∧
    (∀ out1 out2 : Image, (out1.At 0 0).A = (out2.At 0 0).A →
      findMatch edgeSprite out1 0 0 templates = findMatch edgeSprite out2 0 0 templates) ∧
    (∀ other : Image, (other.At 0 0).A ≠ 0 →
      findMatch edgeSprite other 0 0 templates = some none)) :=
  ⟨by decide, by decide,
    claimed_origin_is_skipped edgeSprite templates (by decide)
      ⟨(newNRGBA 3 4).Set 0 0 ⟨100, 0, 0, 255⟩, 7⟩ 0 0 (by decide)⟩

/-- A claimed pixel of the footprint away from the origin does not stop a
match: on `edgeSprite`, with the canvas pixel `(1, 1)` claimed and the pixel at
the origin `(0, 0)` unclaimed, base template 8 is still accepted at `(0, 0)`. -/
theorem claimed_footprint_still_matches :
    (((newNRGBA 3 4).Set 1 1 ⟨0, 100, 0, 255⟩).At 1 1).A ≠ 0 ∧
    (((newNRGBA 3 4).Set 1 1 ⟨0, 100, 0, 255⟩).At 0 0).A = 0 ∧
    findMatch edgeSprite ((newNRGBA 3 4).Set 1 1 ⟨0, 100, 0, 255⟩) 0 0 templates =
      some (some template8) := by
  decide

/-! ## Properties of reads outside the picture -/

theorem At_outside (img : Image) (x y : Nat) (h : ¬ (x < img.w ∧ y < img.h)) :
    img.At x y = img.outside := by
  unfold Image.At
  rw [if_neg h]

set_option maxRecDepth 100000 in
/-- Every row and every column of every variant of the library holds a Body
cell. -/
theorem library_body_cover :
    ∀ t ∈ templates, (∀ row ∈ t, BODY ∈ row) ∧
      ∀ row ∈ t, ∀ dx < row.length, ∃ r ∈ t, r[dx]? = some BODY := by
  decide

/-- C15, as stated, fails: on the 2 x 4 picture `narrowSprite` the mirror of
base template 8, three cells wide, is accepted at origin `(0, 0)` although its
cells of column 2 lie outside the picture; the scan counts that match. -/
theorem out_of_range_counterexample :
    narrowSprite.w = 2 ∧
    templates[17]? = some (flipHorizontal template8) ∧
    ((flipHorizontal template8)[0]?.bind fun row => row[2]?) = some BODY ∧
    ¬ (0 + 2 < narrowSprite.w ∧ 0 + 0 < narrowSprite.h) ∧
    findMatch narrowSprite (newNRGBA 2 4) 0 0 templates =
      some (some (flipHorizontal template8)) ∧
    (scan narrowSprite templates).map (fun s => s.count) = some 1 := by
  decide

/-- C15, amended: there is no bounds guard. A cell of the footprint outside
the picture reads the out-of-range colour of the picture (the zero colour
`(0,0,0,0)` for an NRGBA or RGBA picture, black with full alpha for a grey
one, palette entry 0 for a paletted one) and is tested like any other pixel.
A library variant whose footprint at the origin has a cell outside the
picture is not accepted there when that out-of-range colour is not within
tolerance 8 of the body-anchor colour. -/
theorem out_of_range_reads_outside (img outImg : Image) (x y : Nat) (lib : List Template)
    (t : Template) (ht : t ∈ templates) (dx dy : Nat) (row : Row)
    (hrow : t[dy]? = some row) (hdx : dx < row.length)
    (hout : ¬ (x + dx < img.w ∧ y + dy < img.h)) :
    img.At (x + dx) (y + dy) = img.outside ∧
    ∀ bodyX bodyY : Nat, bodyPoint t = some (bodyX, bodyY) →
      isSame img.outside (img.At (x + bodyX) (y + bodyY)) 8 = false →
      variantPasses img outImg x y t = false ∧
      findMatch img outImg x y lib ≠ some (some t) := by
  refine ⟨At_outside img _ _ hout, ?_⟩
  intro bodyX bodyY hb hfar
  have hp : variantPasses img outImg x y t = false := by
    cases hpass : variantPasses img outImg x y t with
    | false => rfl
    | true =>
      exfalso
      obtain ⟨hrows, hcols⟩ := library_body_cover t ht
      have hrowmem : row ∈ t := List.getElem?_mem hrow
      -- a Body cell `(c, k)` of the variant that lies outside the picture
      have hcell : ∃ (c k : Nat) (r : Row), t[k]? = some r ∧ r[c]? = some BODY ∧
          ¬ (x + c < img.w ∧ y + k < img.h) := by
        by_cases hy : y + dy < img.h
        · have hx : ¬ x + dx < img.w := fun hx => hout ⟨hx, hy⟩
          obtain ⟨r, hr, hrc⟩ := hcols row hrowmem dx hdx
          obtain ⟨k, hk⟩ := List.getElem?_of_mem hr
          exact ⟨dx, k, r, hk, hrc, fun h => hx h.1⟩
        · obtain ⟨c, hc⟩ := List.getElem?_of_mem (hrows row hrowmem)
          exact ⟨c, dy, row, hrow, hc, fun h => hy h.2⟩
      obtain ⟨c, k, r, hk, hrc, hoob⟩ := hcell
      cases hv : visorPoint t with
      | none => simp [variantPasses, hb, hv] at hpass
      | some pv =>
        obtain ⟨vx, vY⟩ := pv
        simp only [variantPasses, hb, hv, Bool.and_eq_true] at hpass
        have hcellpass := (gridTest_cells img x y _ _ t).mp hpass.2 k r c BODY hk hrc
        rw [At_outside img _ _ hoob, cellTest_BODY, hfar] at hcellpass
        cases hcellpass
  refine ⟨hp, ?_⟩
  intro h
  have := (findMatch_some_passes img outImg x y lib t h).2
  rw [hp] at this
  cases this

/-- The amended C15 for base template 0, four cells wide, on the 3 x 4 NRGBA
picture `edgeSprite` at origin `(0, 0)`. -/
theorem out_of_range_reads_outside_witness :
    template0 ∈ templates ∧ template0[0]? = some [BG, BODY, BODY, BODY] ∧
    3 < [BG, BODY, BODY, BODY].length ∧
    ¬ (0 + 3 < edgeSprite.w ∧ 0 + 0 < edgeSprite.h) ∧
    (edgeSprite.At (0 + 3) (0 + 0) = edgeSprite.outside ∧
    ∀ bodyX bodyY : Nat, bodyPoint template0 = some (bodyX, bodyY) →
      isSame edgeSprite.outside (edgeSprite.At (0 + bodyX) (0 + bodyY)) 8 = false →
      variantPasses edgeSprite (newNRGBA 3 4) 0 0 template0 = false ∧
      findMatch edgeSprite (newNRGBA 3 4) 0 0 templates ≠ some (some template0)) :=
  ⟨by decide, by decide, by decide, by decide,
    out_of_range_reads_outside edgeSprite (newNRGBA 3 4) 0 0 templates template0 (by decide)
      3 0 [BG, BODY, BODY, BODY] (by decide) (by decide) (by decide)⟩

/-- On the grey picture `greySprite`, where a read outside the bounds gives
black with full alpha, the black body is within tolerance 8 of that colour and
the mirror of base template 8, three cells wide, is accepted at origin `(0, 0)`
of the 2-wide picture; the body colour is not within tolerance 8 of the zero
colour. -/
theorem grey_picture_out_of_range :
    greySprite.w = 2 ∧ greySprite.outside = ⟨0, 0, 0, 255⟩ ∧
    isSame greySprite.outside (greySprite.At 0 0) 8 = true ∧
    isSame zeroColor (greySprite.At 0 0) 8 = false ∧
    findMatch greySprite (newNRGBA 2 4) 0 0 templates =
      some (some (flipHorizontal template8)) ∧
    (scan greySprite templates).map (fun s => s.count) = some 1 := by
  decide

/-! ## Properties of the combined `BG | BODY` cell -/

/-- A `BG | BODY` cell passes for every pixel: a pixel that is not within
tolerance 8 of the body-anchor colour is not within tolerance 6 of it. -/
theorem cellTest_BG_BODY (pixel bodyColor visorColor : NRGBA) :
    cellTest (Int.lor BG BODY) pixel bodyColor visorColor = true := by
  have h1 : Int.land (Int.lor BG BODY) BODY ≠ 0 := by decide
  have h2 : Int.land (Int.lor BG BODY) VISOR = 0 := by decide
  have h3 : Int.land (Int.lor BG BODY) BG ≠ 0 := by decide
  unfold cellTest
  by_cases h8 : diff pixel bodyColor < 8
  · simp [h1, isSame, h8]
  · have h6 : ¬ diff pixel bodyColor < 6 := by omega
    simp [h1, h2, h3, isSame, h8, h6]

theorem variantPasses_template6 (img outImg : Image) (x y : Nat) :
    variantPasses img outImg x y template6 = variantPasses img outImg x y template6Any := by
  have hb : bodyPoint template6 = some (1, 0) := by decide
  have hv : visorPoint template6 = some (2, 1) := by decide
  have hb2 : bodyPoint template6Any = some (1, 0) := by decide
  have hv2 : visorPoint template6Any = some (2, 1) := by decide
  simp only [variantPasses, hb, hv, hb2, hv2]
  simp only [template6, template6Any, gridTest, rowTest, cellTest_BG_BODY, cellTest_ANY]

theorem variantPasses_template6_mirror (img outImg : Image) (x y : Nat) :
    variantPasses img outImg x y (flipHorizontal template6) =
      variantPasses img outImg x y (flipHorizontal template6Any) := by
  have h1 : flipHorizontal template6 =
      [ [BODY, BODY, BODY, BG], [VISOR, VISOR, BODY, BODY], [BODY, BODY, BODY, BODY],
        [BODY, BODY, BODY, Int.lor BG BODY], [BODY, BG, BODY, BG] ] := by decide
  have h2 : flipHorizontal template6Any =
      [ [BODY, BODY, BODY, BG], [VISOR, VISOR, BODY, BODY], [BODY, BODY, BODY, BODY],
        [BODY, BODY, BODY, ANY], [BODY, BG, BODY, BG] ] := by decide
  have hb : bodyPoint (flipHorizontal template6) = some (0, 0) := by decide
  have hv : visorPoint (flipHorizontal template6) = some (0, 1) := by decide
  have hb2 : bodyPoint (flipHorizontal template6Any) = some (0, 0) := by decide
  have hv2 : visorPoint (flipHorizontal template6Any) = some (0, 1) := by decide
  simp only [variantPasses, hb, hv, hb2, hv2]
  rw [h1, h2]
  simp only [gridTest, rowTest, cellTest_BG_BODY, cellTest_ANY]

theorem variantPasses_swapAny (img outImg : Image) (x y : Nat) (t : Template) :
    variantPasses img outImg x y (swapAny t) = variantPasses img outImg x y t := by
  unfold swapAny
  by_cases h1 : t = template6
  · rw [if_pos h1, h1]; exact (variantPasses_template6 img outImg x y).symm
  · rw [if_neg h1]
    by_cases h2 : t = flipHorizontal template6
    · rw [if_pos h2, h2]; exact (variantPasses_template6_mirror img outImg x y).symm
    · rw [if_neg h2]

/-- C20: the cell at row 3, column 0 of base template 6 (and at row 3, column 3
of its mirror) is `BG | BODY`; such a cell passes for every pixel and every
anchor colour, like an `ANY` cell. Base template 6 and its mirror pass at an
origin exactly when their variants with `ANY` in that cell do, and the variant
loop over the library with those two variants swapped in returns the swapped
image of what it returns over the library. -/
theorem combined_cell_is_wildcard :
    baseTemplates[6]? = some template6 ∧
    (template6[3]?.bind fun row => row[0]?) = some (Int.lor BG BODY) ∧
    ((flipHorizontal template6)[3]?.bind fun row => row[3]?) = some (Int.lor BG BODY) ∧
    (∀ pixel bodyColor visorColor : NRGBA,
      cellTest (Int.lor BG BODY) pixel bodyColor visorColor = true ∧
      cellTest (Int.lor BG BODY) pixel bodyColor visorColor =
        cellTest ANY pixel bodyColor visorColor) ∧
    (∀ (img outImg : Image) (x y : Nat),
      variantPasses img outImg x y template6 = variantPasses img outImg x y template6Any ∧
      variantPasses img outImg x y (flipHorizontal template6) =
        variantPasses img outImg x y (flipHorizontal template6Any) ∧
      findMatch img outImg x y (templates.map swapAny) =
        (findMatch img outImg x y templates).map (Option.map swapAny)) := by
  refine ⟨by decide, by decide, by decide, ?_, ?_⟩
  · intro pixel bodyColor visorColor
    exact ⟨cellTest_BG_BODY _ _ _, by rw [cellTest_BG_BODY, cellTest_ANY]⟩
  · intro img outImg x y
    refine ⟨variantPasses_template6 img outImg x y,
      variantPasses_template6_mirror img outImg x y, ?_⟩
    have h1 : anchored templates := by decide
    have h2 : anchored (templates.map swapAny) := by decide
    rw [findMatch_eq img outImg x y _ h1, findMatch_eq img outImg x y _ h2, List.find?_map]
    have hfun : (variantPasses img outImg x y ∘ swapAny) = variantPasses img outImg x y := by
      funext t
      exact variantPasses_swapAny img outImg x y t
    rw [hfun]
    rfl

/-! ## Properties of the scan of a uniform picture -/

theorem diff_self (c : NRGBA) : diff c c = 0 := by
  simp [diff, delta]

theorem uniform_At (w h : Nat) (c : NRGBA) (x y : Nat) :
    (uniform w h c).At x y = if x < w ∧ y < h then c else zeroColor := rfl

set_option maxRecDepth 100000 in
/-- In every variant of the library the anchors are ordered and the cell at
row 2, column 2 is a Body cell. -/
theorem library_anchor_order :
    ∀ t ∈ templates, anchorsOrdered t = true ∧
      (t[2]?.bind fun row => row[2]?) = some BODY := by
  decide

/-- No variant of the library passes at any origin of a uniform picture. -/
theorem uniform_no_pass (w h : Nat) (c : NRGBA) (outImg : Image) (x y : Nat) :
    ∀ t ∈ templates, variantPasses (uniform w h c) outImg x y t = false := by
  intro t ht
  obtain ⟨hord, hcell⟩ := library_anchor_order t ht
  unfold anchorsOrdered at hord
  cases hb : bodyPoint t with
  | none => simp [hb] at hord
  | some pb =>
    obtain ⟨bx, bY⟩ := pb
    cases hv : visorPoint t with
    | none => simp [hb, hv] at hord
    | some pv =>
      obtain ⟨vx, vY⟩ := pv
      simp only [hb, hv, decide_eq_true_eq] at hord
      obtain ⟨h1, h2, h3, h4⟩ := hord
      cases hpass : variantPasses (uniform w h c) outImg x y t with
      | false => rfl
      | true =>
        exfalso
        simp only [variantPasses, hb, hv, Bool.and_eq_true, Bool.not_eq_true',
          decide_eq_true_eq] at hpass
        obtain ⟨⟨hdist, _⟩, hgrid⟩ := hpass
        rw [uniform_At, uniform_At] at hdist
        by_cases hvin : x + vx < w ∧ y + vY < h
        · have hbin : x + bx < w ∧ y + bY < h := ⟨by omega, by omega⟩
          rw [if_pos hvin, if_pos hbin] at hdist
          simp [isSame, diff_self] at hdist
        · rw [if_neg hvin] at hdist
          by_cases hbin : x + bx < w ∧ y + bY < h
          · rw [if_pos hbin] at hdist
            -- the Body cell at row 2, column 2 lies outside the picture
            obtain ⟨row, hrow, hrc⟩ : ∃ row, t[2]? = some row ∧ row[2]? = some BODY := by
              cases hr : t[2]? with
              | none => rw [hr] at hcell; cases hcell
              | some row => rw [hr] at hcell; exact ⟨row, rfl, hcell⟩
            have hout : ¬ (x + 2 < w ∧ y + 2 < h) := by
              intro hin; exact hvin ⟨by omega, by omega⟩
            have hc := (gridTest_cells (uniform w h c) x y _ _ t).mp hgrid 2 row 2 BODY hrow hrc
            rw [cellTest_BODY] at hc
            rw [uniform_At, uniform_At, if_neg hout, if_pos hbin] at hc
            have hsym := diff_comm zeroColor c
            simp only [isSame, decide_eq_true_eq, decide_eq_false_iff_not] at hc hdist
            rw [hsym] at hc
            omega
          · rw [if_neg hbin] at hdist
            simp [isSame, diff_self] at hdist

theorem findMatch_uniform (w h : Nat) (c : NRGBA) (outImg : Image) (x y : Nat) :
    findMatch (uniform w h c) outImg x y templates = some none := by
  have hlib : anchored templates := by decide
  rw [findMatch_eq _ outImg x y templates hlib]
  congr 1
  exact List.find?_eq_none.mpr (fun t ht => by simp [uniform_no_pass w h c outImg x y t ht])

/-- A visit of an origin of a uniform picture counts no match and stores the
dimmed colour at the origin. -/
theorem visit_uniform (w h : Nat) (c : NRGBA) (s : ScanState) (x y : Nat)
    (hs : dimmedUpTo w h (nrgbaModel (dimmedColor c)) x y s) (hx : x < w) (hy : y < h) :
    ∃ s1, visit (uniform w h c) templates s x y = some s1 ∧
      dimmedUpTo w h (nrgbaModel (dimmedColor c)) x (y + 1) s1 := by
  obtain ⟨hcount, hw, hh, hpix⟩ := hs
  have hin : x < s.outImg.w ∧ y < s.outImg.h := by rw [hw, hh]; exact ⟨hx, hy⟩
  have hzero : s.outImg.At x y = zeroColor := by
    unfold Image.At
    rw [if_pos hin, hpix x y, if_neg (by omega)]
  have hsrc : (uniform w h c).At x y = c := by
    rw [uniform_At, if_pos ⟨hx, hy⟩]
  refine ⟨⟨s.outImg.Set x y (nrgbaModel (dimmedColor c)), s.count⟩, ?_, ?_⟩
  · unfold visit
    rw [findMatch_uniform]
    simp only [dim, hzero, hsrc, Image.SetRGBA]
    rfl
  · refine ⟨hcount, ?_, ?_, ?_⟩
    · simp only [Image.Set, if_pos hin]; exact hw
    · simp only [Image.Set, if_pos hin]; exact hh
    · intro x1 y1
      simp only [Image.Set, if_pos hin]
      by_cases h1 : x1 = x ∧ y1 = y
      · rw [if_pos h1, if_pos (by omega)]
      · rw [if_neg h1, hpix x1 y1]
        by_cases h2 : x1 < w ∧ y1 < h ∧ (x1 < x ∨ (x1 = x ∧ y1 < y))
        · rw [if_pos h2, if_pos (by omega)]
        · rw [if_neg h2, if_neg (by omega)]

theorem column_uniform (w h : Nat) (c : NRGBA) (x : Nat) (hx : x < w) (s : ScanState)
    (hs : dimmedUpTo w h (nrgbaModel (dimmedColor c)) x 0 s) :
    ∀ n, n ≤ h → ∃ s1,
      (List.range n).foldlM (fun s y => visit (uniform w h c) templates s x y) s = some s1 ∧
      dimmedUpTo w h (nrgbaModel (dimmedColor c)) x n s1 := by
  intro n
  induction n with
  | zero => intro _; exact ⟨s, rfl, hs⟩
  | succ n ih =>
    intro hn
    obtain ⟨s1, hfold, hs1⟩ := ih (by omega)
    obtain ⟨s2, hvisit, hs2⟩ := visit_uniform w h c s1 x n hs1 hx (by omega)
    refine ⟨s2, ?_, hs2⟩
    rw [List.range_succ, List.foldlM_append, hfold]
    simp only [List.foldlM_cons, List.foldlM_nil]
    show (visit (uniform w h c) templates s1 x n).bind pure = some s2
    rw [hvisit]
    rfl

theorem scanColumn_uniform (w h : Nat) (c : NRGBA) (x : Nat) (hx : x < w) (s : ScanState)
    (hs : dimmedUpTo w h (nrgbaModel (dimmedColor c)) x 0 s) :
    ∃ s1, scanColumn (uniform w h c) templates x s = some s1 ∧
      dimmedUpTo w h (nrgbaModel (dimmedColor c)) (x + 1) 0 s1 := by
  obtain ⟨s1, hfold, hcount, hw, hh, hpix⟩ := column_uniform w h c x hx s hs h (le_refl _)
  refine ⟨s1, hfold, hcount, hw, hh, ?_⟩
  intro x1 y1
  rw [hpix x1 y1]
  by_cases h2 : x1 < w ∧ y1 < h ∧ (x1 < x ∨ (x1 = x ∧ y1 < h))
  · rw [if_pos h2, if_pos (by omega)]
  · rw [if_neg h2, if_neg (by omega)]

theorem columns_uniform (w h : Nat) (c : NRGBA) :
    ∀ n, n ≤ w → ∃ s1,
      (List.range n).foldlM (fun s x => scanColumn (uniform w h c) templates x s)
        ⟨newNRGBA w h, 0⟩ = some s1 ∧
      dimmedUpTo w h (nrgbaModel (dimmedColor c)) n 0 s1 := by
  intro n
  induction n with
  | zero =>
    intro _
    refine ⟨⟨newNRGBA w h, 0⟩, rfl, rfl, rfl, rfl, ?_⟩
    intro x1 y1
    rw [if_neg (by omega)]
    rfl
  | succ n ih =>
    intro hn
    obtain ⟨s1, hfold, hs1⟩ := ih (by omega)
    obtain ⟨s2, hcol, hs2⟩ := scanColumn_uniform w h c n (by omega) s1 hs1
    refine ⟨s2, ?_, hs2⟩
    rw [List.range_succ, List.foldlM_append, hfold]
    simp only [List.foldlM_cons, List.foldlM_nil]
    show (scanColumn (uniform w h c) templates n s1).bind pure = some s2
    rw [hcol]
    rfl

/-- The scan of a uniform picture of any size and colour counts no match and
leaves the stored dimmed colour in every pixel of the canvas. -/
theorem scan_uniform (w h : Nat) (c : NRGBA) :
    ∃ s, scan (uniform w h c) templates = some s ∧ s.count = 0 ∧
      ∀ x < w, ∀ y < h, s.outImg.At x y = nrgbaModel (dimmedColor c) := by
  obtain ⟨s, hscan, hcount, hw, hh, hpix⟩ := columns_uniform w h c w (le_refl _)
  refine ⟨s, hscan, hcount, ?_⟩
  intro x hx y hy
  unfold Image.At
  rw [hw, hh, if_pos ⟨hx, hy⟩, hpix x y, if_pos (by omega)]

set_option maxRecDepth 1000000 in
/-- C13: for every width, height and colour the scan of the uniform picture
counts no match and every output pixel holds the stored dimmed colour; for an
opaque colour that is `(R/4, G/4, B/4, 255)`, as on the 5 x 7 picture of
`(200,100,50,255)`. For a colour that is not opaque the stored pixel is not
`(R/4, G/4, B/4, A)`: the 1 x 1 picture of `(200,100,50,128)` gives
`(99,49,23,128)` instead of `(50,25,12,128)`. -/
theorem uniform_picture_scan :
    (∀ (w h : Nat) (c : NRGBA), ∃ s, scan (uniform w h c) templates = some s ∧
      s.count = 0 ∧ ∀ x < w, ∀ y < h, s.outImg.At x y = nrgbaModel (dimmedColor c)) ∧
    (∀ c : NRGBA, c.valid → c.A = 255 →
      nrgbaModel (dimmedColor c) = ⟨c.R / 4, c.G / 4, c.B / 4, c.A⟩) ∧
    (scan (uniform 5 7 ⟨200, 100, 50, 255⟩) templates).map
      (fun s => (s.count, decide (allPixels s.outImg ⟨50, 25, 12, 255⟩))) = some (0, true) ∧
    (scan (uniform 1 1 ⟨200, 100, 50, 128⟩) templates).map
      (fun s => (s.count, s.outImg.At 0 0)) = some (0, ⟨99, 49, 23, 128⟩) ∧
    (⟨99, 49, 23, 128⟩ : NRGBA) ≠ ⟨200 / 4, 100 / 4, 50 / 4, 128⟩ := by
  refine ⟨scan_uniform, ?_, by decide, by decide, by decide⟩
  intro c hc hA
  rw [nrgbaModel_dimmed_full_alpha c hc hA, hA]

/-! ## Properties of the scan of a picture with one sprite -/

set_option maxRecDepth 1000000 in
set_option maxHeartbeats 4000000 in
/-- C14: on `goodSprite`, an 8 x 10 picture with template 0 drawn at `(2, 2)`,
the scan counts exactly one match, the output pixels under the Body and Visor
cells are the source pixels and every other output pixel is the stored dimmed
pixel. On `wrapSprite`, the same picture with body and visor colours at
Manhattan distance 256 (and both at distance 499 and more from the
background), `diff` of body and visor wraps to 0: every variant is skipped at
every origin, the scan counts no match, and the Body cell at `(3, 2)` holds the
dimmed pixel instead of the source pixel. -/
theorem sprite_picture_scan :
    (scan goodSprite templates).map
      (fun s => (s.count, decide (spriteOutput goodSprite s.outImg 2 2))) = some (1, true) ∧
    manhattan ⟨10, 0, 0, 255⟩ ⟨138, 128, 0, 255⟩ = 256 ∧
    manhattan ⟨10, 0, 0, 255⟩ ⟨255, 255, 255, 255⟩ = 755 ∧
    manhattan ⟨138, 128, 0, 255⟩ ⟨255, 255, 255, 255⟩ = 499 ∧
    diff ⟨10, 0, 0, 255⟩ ⟨138, 128, 0, 255⟩ = 0 ∧
    roleAt 2 2 3 2 = BODY ∧
    wrapSprite.At 3 2 = ⟨10, 0, 0, 255⟩ ∧
    (scan wrapSprite templates).map (fun s => (s.count, s.outImg.At 3 2)) =
      some (0, ⟨2, 0, 0, 255⟩) := by
  decide

end Susalyzer
